import Mathlib

/-!
Shallow embedding of the victron_mqtt library (a Python MQTT client for
Victron Venus OS) and proofs about its message-decoding, topic-parsing and
metric-resolution logic.

Python values appearing in MQTT payloads are modelled by `JValue`; a payload
string is modelled as `Option JValue`, where `none` stands for a string that
is not valid JSON (so `json.loads` raises `json.JSONDecodeError` on it) and
`some v` stands for a string whose parse result is `v`.  Python exceptions
are modelled with the `Except PyErr` monad; a `try/except` block translates
to an explicit catch of the exception kinds listed in the source.
-/

namespace VictronMqtt

/-- Decidable equality for `Except`, used to evaluate the embedded functions
on concrete inputs. -/
instance {ε α : Type} [DecidableEq ε] [DecidableEq α] : DecidableEq (Except ε α) := fun x y =>
  match x, y with
  | .ok a, .ok b =>
      if h : a = b then .isTrue (congrArg Except.ok h)
      else .isFalse (fun he => h (Except.ok.inj he))
  | .error a, .error b =>
      if h : a = b then .isTrue (congrArg Except.error h)
      else .isFalse (fun he => h (Except.error.inj he))
  | .ok _, .error _ => .isFalse (fun he => Except.noConfusion he)
  | .error _, .ok _ => .isFalse (fun he => Except.noConfusion he)

/-- Python exception kinds that the modelled code can raise. -/
inductive PyErr where
  | jsonDecodeError
  | keyError
  | typeError
  | valueError
  | indexError
  | attributeError
  deriving DecidableEq, Repr

/-- JSON values (the results of `json.loads`).  Python floats are modelled as
rationals. -/
inductive JValue where
  | jnull
  | jbool (b : Bool)
  | jint (n : Int)
  | jfloat (q : Rat)
  | jstr (s : String)
  | jarr (elems : List JValue)
  | jobj (fields : List (String × JValue))
  deriving Repr

/-- A raw MQTT payload: `none` when the string is not valid JSON. -/
abbrev Payload := Option JValue

/-- Model of `json.loads`: raises `JSONDecodeError` on malformed input. -/
def jsonLoads : Payload → Except PyErr JValue
  | none => .error .jsonDecodeError
  | some v => .ok v

/-- Whether a JSON value is the JSON null (Python `None`). -/
def JValue.isNull : JValue → Bool
  | .jnull => true
  | _ => false

/-- Model of Python subscript `data[key]` on a parsed JSON value: `KeyError`
when the key is absent from a dict, `TypeError` when the value is not a
dict. -/
def getItem (data : JValue) (key : String) : Except PyErr JValue :=
  match data with
  | .jobj fields =>
      match fields.find? (fun kv => kv.1 = key) with
      | some kv => .ok kv.2
      | none => .error .keyError
  | _ => .error .typeError

/-- Model of Python `data.get(key)` on a parsed JSON value: returns JSON null
for an absent key; raises `AttributeError` when `data` is not a dict (lists,
numbers and strings have no `.get`). -/
def dictGet (data : JValue) (key : String) : Except PyErr JValue :=
  match data with
  | .jobj fields =>
      match fields.find? (fun kv => kv.1 = key) with
      | some kv => .ok kv.2
      | none => .ok .jnull
  | _ => .error .attributeError

/-- Split a character list on a separator character (structural model of
Python `str.split(sep)`, which never returns an empty list). -/
def splitCharGo (sep : Char) : List Char → List Char → List String
  | acc, [] => [String.mk acc.reverse]
  | acc, c :: cs =>
      if c = sep then String.mk acc.reverse :: splitCharGo sep [] cs
      else splitCharGo sep (c :: acc) cs

/-- Split a string on a separator character. -/
def splitChar (sep : Char) (s : String) : List String :=
  splitCharGo sep [] s.data

/-- Model of Python `topic.split("/")`. -/
def splitSlash (s : String) : List String :=
  splitChar '/' s

/-- Model of Python `s.startswith(t)`. -/
def strStartsWith (s t : String) : Bool :=
  t.data.isPrefixOf s.data

/-- Model of Python `s.endswith(t)`. -/
def strEndsWith (s t : String) : Bool :=
  t.data.reverse.isPrefixOf s.data.reverse

/-- Model of Python `s.strip()` restricted to ASCII whitespace. -/
def strTrimChars (s : String) : List Char :=
  ((s.data.dropWhile Char.isWhitespace).reverse.dropWhile Char.isWhitespace).reverse

/-- Digit-list to integer value helper shared by the numeric parsers. -/
def digitsVal (cs : List Char) : Nat :=
  cs.foldl (fun a c => a * 10 + (c.toNat - '0'.toNat)) 0

/-- Best-effort model of `int(s)` on a string: optional sign followed by
digits.  Anything else raises `ValueError`. -/
def strToInt? (s : String) : Option Int :=
  let t := strTrimChars s
  let neg := t.take 1 = ['-']
  let core := if neg ∨ t.take 1 = ['+'] then t.drop 1 else t
  if core.length > 0 ∧ core.all Char.isDigit then
    some (if neg then -(digitsVal core : Int) else (digitsVal core : Int))
  else
    none

/-- Truncation toward zero, as Python `int(float)` does. -/
def ratTrunc (q : Rat) : Int :=
  if 0 ≤ q then ⌊q⌋ else ⌈q⌉

/-- Model of Python `int(x)` on a JSON value. -/
def pyInt (v : JValue) : Except PyErr Int :=
  match v with
  | .jint n => .ok n
  | .jbool b => .ok (if b then 1 else 0)
  | .jfloat q => .ok (ratTrunc q)
  | .jstr s =>
      match strToInt? s with
      | some n => .ok n
      | none => .error .valueError
  | .jnull => .error .typeError
  | .jarr _ => .error .typeError
  | .jobj _ => .error .typeError

/-- Best-effort model of `float(s)` on a string: sign, digits, optional
fractional part. -/
def strToRat? (s : String) : Option Rat :=
  let t := strTrimChars s
  let neg := t.take 1 = ['-']
  let core := if neg ∨ t.take 1 = ['+'] then t.drop 1 else t
  match splitCharGo '.' [] core with
  | [ip] =>
      let cs := ip.data
      if cs.length > 0 ∧ cs.all Char.isDigit then
        some ((if neg then -1 else 1) * (digitsVal cs : Rat))
      else none
  | [ip, fp] =>
      let ics := ip.data
      let fcs := fp.data
      if ics.length > 0 ∧ fcs.length > 0 ∧ ics.all Char.isDigit ∧ fcs.all Char.isDigit then
        some ((if neg then -1 else 1) *
          ((digitsVal ics : Rat) + (digitsVal fcs : Rat) / (10 : Rat) ^ fcs.length))
      else none
  | _ => none

/-- Model of Python `float(x)` on a JSON value. -/
def pyFloat (v : JValue) : Except PyErr Rat :=
  match v with
  | .jint n => .ok (n : Rat)
  | .jbool b => .ok (if b then 1 else 0)
  | .jfloat q => .ok q
  | .jstr s =>
      match strToRat? s with
      | some q => .ok q
      | none => .error .valueError
  | .jnull => .error .typeError
  | .jarr _ => .error .typeError
  | .jobj _ => .error .typeError

/-- Model of Python `bool(x)` on a JSON value (total, never raises). -/
def pyBool (v : JValue) : Bool :=
  match v with
  | .jnull => false
  | .jbool b => b
  | .jint n => n ≠ 0
  | .jfloat q => q ≠ 0
  | .jstr s => s ≠ ""
  | .jarr l => ¬ l.isEmpty
  | .jobj f => ¬ f.isEmpty

/-- Model of Python `str(x)` on a JSON value (total; the exact rendering of
non-string values is irrelevant to the claims proved below). -/
def pyStr (v : JValue) : String :=
  match v with
  | .jnull => "None"
  | .jbool b => if b then "True" else "False"
  | .jint n => toString n
  | .jfloat q => toString q
  | .jstr s => s
  | .jarr _ => "<list>"
  | .jobj _ => "<dict>"

/-- Round half to even (Python's `round` tie-breaking) to an integer. -/
def rheInt (x : Rat) : Int :=
  let f : Int := ⌊x⌋
  let r : Rat := x - (f : Rat)
  if r < 1/2 then f
  else if 1/2 < r then f + 1
  else if f % 2 = 0 then f else f + 1

/-- Model of Python `round(x, p)` on exact rationals (banker's rounding at
`p` decimal digits). -/
def pyRound (x : Rat) (p : Int) : Rat :=
  (rheInt (x * (10 : Rat) ^ p) : Rat) / (10 : Rat) ^ p

/-- Catch the listed exception kinds, substituting the handler's value (the
model of a `try: body except (kinds): return handler` block). -/
def pyCatch (caught : List PyErr) (body : Except PyErr α) (handler : α) : Except PyErr α :=
  match body with
  | .ok v => .ok v
  | .error e => if e ∈ caught then .ok handler else .error e

/-- The exception tuple `(json.JSONDecodeError, KeyError, ValueError,
TypeError)` used by the `except` clauses in `_unwrappers.py`. -/
def stdCaught : List PyErr :=
  [.jsonDecodeError, .keyError, .valueError, .typeError]

/-- A member of a `VictronEnum` with an integer code. -/
structure EnumMember where
  code : Int
  string : String
  deriving DecidableEq, Repr

/-- Whether a JSON value equals an integer enum code under Python `==`
(numeric cross-type equality: `1 == 1.0 == True`). -/
def codeMatches (v : JValue) (c : Int) : Bool :=
  match v with
  | .jint n => n = c
  | .jfloat q => q = (c : Rat)
  | .jbool b => (if b then (1 : Int) else 0) = c
  | _ => false

/-- Model of `VictronEnum.from_code` (integer-coded enums): dictionary lookup
with default `None`. -/
def enumFromCode (members : List EnumMember) (v : JValue) : Option EnumMember :=
  members.find? (fun m => codeMatches v m.code)

/-- `unwrap_bool` from `_unwrappers.py`. -/
def unwrap_bool (p : Payload) : Except PyErr (Option Bool) :=
  pyCatch stdCaught
    (do
      let data ← jsonLoads p
      let val ← getItem data "value"
      if val.isNull then pure none
      else pure (some (pyBool val)))
    none

/-- `unwrap_int` from `_unwrappers.py`. -/
def unwrap_int (p : Payload) : Except PyErr (Option Int) :=
  pyCatch stdCaught
    (do
      let data ← jsonLoads p
      let val ← getItem data "value"
      if val.isNull then pure none
      else do
        let n ← pyInt val
        pure (some n))
    none

/-- `unwrap_int_default_0` from `_unwrappers.py`. -/
def unwrap_int_default_0 (p : Payload) : Except PyErr Int :=
  pyCatch stdCaught
    (do
      let data ← jsonLoads p
      let val ← getItem data "value"
      if val.isNull then pure 0
      else pyInt val)
    0

/-- `unwrap_int_seconds_to_hours` from `_unwrappers.py`. -/
def unwrap_int_seconds_to_hours (p : Payload) (precision : Option Int) :
    Except PyErr (Option Rat) := do
  let seconds? ← unwrap_int p
  match seconds? with
  | none => pure none
  | some seconds =>
      let hours : Rat := (seconds : Rat) / 3600
      pure (some (match precision with
        | none => hours
        | some pr => pyRound hours pr))

/-- `unwrap_int_seconds_to_minutes` from `_unwrappers.py`. -/
def unwrap_int_seconds_to_minutes (p : Payload) (precision : Option Int) :
    Except PyErr (Option Rat) := do
  let seconds? ← unwrap_int p
  match seconds? with
  | none => pure none
  | some seconds =>
      let minutes : Rat := (seconds : Rat) / 60
      pure (some (match precision with
        | none => minutes
        | some pr => pyRound minutes pr))

/-- `unwrap_float` from `_unwrappers.py`.  Note the source uses
`data.get(json_value)`, so a non-dict payload raises `AttributeError`, which
is not in the caught exception tuple. -/
def unwrap_float (p : Payload) (precision : Option Int) (json_value : String := "value") :
    Except PyErr (Option Rat) :=
  pyCatch stdCaught
    (do
      let data ← jsonLoads p
      let got ← dictGet data json_value
      if got.isNull then pure none
      else do
        let value ← pyFloat got
        pure (some (match precision with
          | none => value
          | some pr => pyRound value pr)))
    none

/-- `unwrap_string` from `_unwrappers.py`. -/
def unwrap_string (p : Payload) : Except PyErr (Option String) :=
  pyCatch stdCaught
    (do
      let data ← jsonLoads p
      let val ← getItem data "value"
      if val.isNull then pure none
      else pure (some (pyStr val)))
    none

/-- `unwrap_enum` from `_unwrappers.py`.  In the source only `json.loads` is
inside the `try` block; `data["value"]` is executed outside it, so a
`KeyError`/`TypeError` raised there propagates to the caller. -/
def unwrap_enum (p : Payload) (enum : List EnumMember) :
    Except PyErr (Option EnumMember) :=
  match pyCatch stdCaught ((jsonLoads p).map some) none with
  | .error e => .error e
  | .ok none => .ok none
  | .ok (some data) => do
      let val ← getItem data "value"
      pure (if val.isNull then none else enumFromCode enum val)

/-- Positive-bit decomposition: `[2**idx for idx, bit in
enumerate(bin(val)[:1:-1]) if int(bit)]` for a positive integer. -/
def bitsOf (m : Nat) : List Int :=
  ((List.range (Nat.log2 m + 1)).filter (fun i => m.testBit i)).map
    (fun i => ((2 : Int) ^ i))

/-- Comma-join of a list of strings (`BITMASK_SEPARATOR` is `","`). -/
def joinComma : List String → String
  | [] => ""
  | [x] => x
  | x :: xs => x ++ "," ++ joinComma xs

/-- Join of enum strings for a bitmask, `,`-separated, skipping codes that
resolve to no member (`BITMASK_SEPARATOR` is `","`). -/
def joinBitmask (enum : List EnumMember) (vals : List Int) : String :=
  joinComma
    (((vals.map (fun v => enumFromCode enum (.jint v))).filterMap id).map
      (fun e => e.string))

/-- `unwrap_bitmask` from `_unwrappers.py`.  As with `unwrap_enum`, only
`json.loads` is guarded by the `try`; the `data["value"]` access and the
`bin`/`int` conversions run unguarded.  `bin(val)` raises `TypeError` on a
non-integer, and that is only reached when `int(val) > 0`. -/
def unwrap_bitmask (p : Payload) (enum : List EnumMember) :
    Except PyErr (Option String) :=
  match pyCatch stdCaught ((jsonLoads p).map some) none with
  | .error e => .error e
  | .ok none => .ok none
  | .ok (some data) => do
      let val ← getItem data "value"
      if val.isNull then pure none
      else do
        let n ← pyInt val
        if 0 < n then
          match val with
          | .jint m => pure (some (joinBitmask enum (bitsOf m.toNat)))
          | .jbool _ => pure (some (joinBitmask enum (bitsOf 1)))
          | _ => .error .typeError
        else
          pure (some (joinBitmask enum [0]))

/-- `wrap_int` from `_unwrappers.py`: `json.dumps({"value": value})`.  The
result is modelled as the JSON value the dumped string parses back to. -/
def wrap_int (value : Option Int) : JValue :=
  .jobj [("value", match value with | none => .jnull | some n => .jint n)]

/-- `wrap_int_hours_to_seconds` from `_unwrappers.py`. -/
def wrap_int_hours_to_seconds (value : Option Int) : JValue :=
  .jobj [("value", match value with | none => .jnull | some n => .jint (n * 3600))]

/-- `wrap_int_minutes_to_seconds` from `_unwrappers.py`. -/
def wrap_int_minutes_to_seconds (value : Option Int) : JValue :=
  .jobj [("value", match value with | none => .jnull | some n => .jint (n * 60))]

/-- `wrap_int_default_0` from `_unwrappers.py`. -/
def wrap_int_default_0 (value : Option Int) : JValue :=
  .jobj [("value", .jint (match value with | none => 0 | some n => n))]

/-- `wrap_float` from `_unwrappers.py`. -/
def wrap_float (value : Option Rat) : JValue :=
  .jobj [("value", match value with | none => .jnull | some q => .jfloat q)]

/-- `wrap_string` from `_unwrappers.py`. -/
def wrap_string (value : Option String) : JValue :=
  .jobj [("value", match value with | none => .jnull | some s => .jstr s)]

/-- `VictronEnum.from_string` from `constants.py`: lookup of a member by its
string form; an unknown string raises `ValueError`. -/
def from_string (enum : List EnumMember) (s : String) : Except PyErr EnumMember :=
  match enum.find? (fun m => m.string = s) with
  | some m => .ok m
  | none => .error .valueError

/-- `wrap_enum` from `_unwrappers.py` applied to a `VictronEnum` member:
`json.dumps({"value": enum_val.code})`. -/
def wrap_enum (enum_val : EnumMember) : JValue :=
  .jobj [("value", .jint enum_val.code)]

/-- The `str` branch of `wrap_enum`: the string is first resolved to a member
with `enum_expected.from_string` (propagating its `ValueError`), then wrapped
like the member branch. -/
def wrap_enum_str (s : String) (enum_expected : List EnumMember) :
    Except PyErr JValue := do
  let m ← from_string enum_expected s
  pure (wrap_enum m)

/-- `wrap_bitmask` from `_unwrappers.py` on an iterable of members: the member
codes are summed into a single integer (`val += v.code`) and wrapped.  A
single member is first boxed into a one-element list; a string is split on
`,` and each part resolved with `from_string` to a member first. -/
def wrap_bitmask (members : List EnumMember) : JValue :=
  .jobj [("value", .jint (members.foldl (fun acc m => acc + m.code) 0))]

/-- `wrap_epoch` from `_unwrappers.py`, with the timestamp kept as a rational:
`datetime.timestamp` is the inverse of the `datetime.fromtimestamp` model used
by `unwrap_epoch`, and the null sentinel wraps as JSON null. -/
def wrap_epoch (value : Option Rat) : JValue :=
  .jobj [("value", match value with | none => .jnull | some q => .jfloat q)]

/-- Re-parsing a dumped JSON object yields the same value: `json.dumps`
composed with `json.loads` is the identity on well-formed values. -/
def dumps (v : JValue) : Payload := some v

/-- `MetricKind` from `constants.py`. -/
inductive MetricKind where
  | attribute
  | sensor
  | binary_sensor
  | switch
  | select
  | number
  | service
  | button
  | time
  deriving DecidableEq, Repr

/-- `ValueType` from `constants.py`. -/
inductive ValueType where
  | vINT
  | vINT_DEFAULT_0
  | vFLOAT
  | vSTRING
  | vENUM
  | vBITMASK
  | vEPOCH
  | vINT_SECONDS_TO_HOURS
  | vINT_SECONDS_TO_MINUTES
  | vFLOAT_M3_TO_LITERS
  deriving DecidableEq, Repr

/-- `RangeType` from `constants.py`. -/
inductive RangeType where
  | static
  | dynamic
  deriving DecidableEq, Repr

/-- A member of the `DeviceType` enum from `_victron_enums.py` (code, display
string, and the optional `mapped_to` code of `VictronDeviceEnum`). -/
structure DeviceType where
  code : String
  string : String
  mapped_to : Option String := none
  deriving DecidableEq, Repr

def DeviceType.SYSTEM : DeviceType := ⟨"system", "System", none⟩
def DeviceType.SOLAR_CHARGER : DeviceType := ⟨"solarcharger", "Solar Charger", none⟩
def DeviceType.INVERTER : DeviceType := ⟨"inverter", "Inverter", none⟩
def DeviceType.BATTERY : DeviceType := ⟨"battery", "Battery", none⟩
def DeviceType.GRID : DeviceType := ⟨"grid", "Grid", none⟩
def DeviceType.VEBUS : DeviceType := ⟨"vebus", "VE.Bus", none⟩
def DeviceType.EVCHARGER : DeviceType := ⟨"evcharger", "EV Charging Station", none⟩
def DeviceType.PVINVERTER : DeviceType := ⟨"pvinverter", "PV Inverter", none⟩
def DeviceType.TEMPERATURE : DeviceType := ⟨"temperature", "Temperature", none⟩
def DeviceType.GENERATOR : DeviceType := ⟨"generator", "Generator", none⟩
def DeviceType.GENERATOR0 : DeviceType := ⟨"Generator0", "Generator 0 Settings", none⟩
def DeviceType.GENERATOR1 : DeviceType := ⟨"Generator1", "Generator 1 Settings", none⟩
def DeviceType.TANK : DeviceType := ⟨"tank", "Liquid Tank", none⟩
def DeviceType.MULTI_RS_SOLAR : DeviceType := ⟨"multi", "Multi RS Solar", none⟩
def DeviceType.CGWACS : DeviceType := ⟨"CGwacs", "<Not used>", some "system"⟩
def DeviceType.DC_LOAD : DeviceType := ⟨"dcload", "DC Load", none⟩
def DeviceType.ALTERNATOR : DeviceType := ⟨"alternator", "Charger (Orion/Alternator)", none⟩
def DeviceType.SWITCH : DeviceType := ⟨"switch", "Switch", none⟩
def DeviceType.GPS : DeviceType := ⟨"gps", "Gps", none⟩
def DeviceType.SYSTEM_SETUP : DeviceType := ⟨"SystemSetup", "System Setup", none⟩
def DeviceType.TRANSFER_SWITCH : DeviceType := ⟨"TransferSwitch", "Transfer Switch", none⟩
def DeviceType.DIGITAL_INPUT : DeviceType := ⟨"digitalinput", "Digital Input", none⟩
def DeviceType.DC_SYSTEM : DeviceType := ⟨"dcsystem", "DC System", none⟩
def DeviceType.RELAY : DeviceType := ⟨"Relay", "<Not used>", some "system"⟩
def DeviceType.PLATFORM : DeviceType := ⟨"platform", "Platform", some "system"⟩
def DeviceType.HEATPUMP : DeviceType := ⟨"heatpump", "Heat Pump", none⟩
def DeviceType.DYNAMIC_ESS : DeviceType := ⟨"DynamicEss", "Dynamic ESS", some "system"⟩
def DeviceType.ACLOAD : DeviceType := ⟨"acload", "AC Load", none⟩

/-- The member list of `DeviceType`, in declaration order. -/
def DeviceType.members : List DeviceType :=
  [DeviceType.SYSTEM, DeviceType.SOLAR_CHARGER, DeviceType.INVERTER,
   DeviceType.BATTERY, DeviceType.GRID, DeviceType.VEBUS, DeviceType.EVCHARGER,
   DeviceType.PVINVERTER, DeviceType.TEMPERATURE, DeviceType.GENERATOR,
   DeviceType.GENERATOR0, DeviceType.GENERATOR1, DeviceType.TANK,
   DeviceType.MULTI_RS_SOLAR, DeviceType.CGWACS, DeviceType.DC_LOAD,
   DeviceType.ALTERNATOR, DeviceType.SWITCH, DeviceType.GPS,
   DeviceType.SYSTEM_SETUP, DeviceType.TRANSFER_SWITCH,
   DeviceType.DIGITAL_INPUT, DeviceType.DC_SYSTEM, DeviceType.RELAY,
   DeviceType.PLATFORM, DeviceType.HEATPUMP, DeviceType.DYNAMIC_ESS,
   DeviceType.ACLOAD]

/-- `VictronDeviceEnum.from_code`: lookup by code, following `mapped_to` one
step (the mapped code is resolved with the plain lookup, no re-mapping). -/
def DeviceType.from_code (v : String) : Option DeviceType :=
  match DeviceType.members.find? (fun m => m.code = v) with
  | none => none
  | some m =>
      match m.mapped_to with
      | none => some m
      | some t => DeviceType.members.find? (fun x => x.code = t)

/-- `TopicDescriptor` from `data_classes.py`, restricted to the fields the
verified claims touch.  `enum` holds the member list for enum/bitmask values;
`key_values` mirrors the dataclass field of the same name. -/
structure TopicDescriptor where
  topic : String
  message_type : MetricKind
  short_id : String
  name : Option String := none
  value_type : Option ValueType := none
  precision : Option Int := none
  enum : List EnumMember := []
  min_max_range : RangeType := .static
  min : Option Rat := none
  max : Option Rat := none
  is_adjustable_suffix : Option String := none
  key_values : List (String × String) := []
  depends_on : List String := []
  deriving DecidableEq, Repr

/-- Model of Python list subscript `l[i]`: `IndexError` when out of range. -/
def listGet (l : List α) (i : Nat) : Except PyErr α :=
  match l[i]? with
  | some v => .ok v
  | none => .error .indexError

/-- Model of Python list item assignment `l[i] = v`: `IndexError` when out of
range. -/
def listSet (l : List α) (i : Nat) (v : α) : Except PyErr (List α) :=
  if i < l.length then .ok (l.set i v) else .error .indexError

/-- Model of Python `str.isdigit` (restricted to ASCII digits). -/
def pyIsDigit (s : String) : Bool :=
  !s.data.isEmpty && s.data.all Char.isDigit

/-- Re-join topic parts with `/`. -/
def joinSlash (parts : List String) : String :=
  match parts with
  | [] => ""
  | [x] => x
  | x :: xs => x ++ "/" ++ joinSlash xs

/-- `topic_to_device_type` from `data_classes.py`.  The `settings` branch
reads segment index 5, which raises `IndexError` on shorter topics. -/
def topic_to_device_type (topic_parts : List String) : Except PyErr (Option DeviceType) := do
  let p0 ← listGet topic_parts 0
  if p0 = "$$func" then do
    let p1 ← listGet topic_parts 1
    pure (DeviceType.from_code p1)
  else if topic_parts.length = 3 ∧ topic_parts.getD 2 "" = "heartbeat" then
    pure (some DeviceType.SYSTEM)
  else if topic_parts.length < 2 then
    pure none
  else do
    let native ← listGet topic_parts 2
    let native ← if native = "settings" then listGet topic_parts 5 else pure native
    pure (DeviceType.from_code native)

/-- `ParsedTopic` from `data_classes.py` (the fields set by `from_topic`). -/
structure ParsedTopicL where
  installation_id : String
  device_id : String
  device_type : DeviceType
  wildcards_with_device_type : String
  wildcards_without_device_type : String
  full_topic : String
  deriving DecidableEq, Repr

/-- `ParsedTopic.normalize_topic`: numeric segments become `##num##`, literal
phase segments become `##phase##`. -/
def normalize_topic (topic : String) : String :=
  joinSlash ((splitSlash topic).map (fun part =>
    let p1 := if pyIsDigit part then "##num##" else part
    if part = "L1" ∨ part = "L2" ∨ part = "L3" then "##phase##" else p1))

/-- `ParsedTopic.from_topic` from `data_classes.py`. -/
def from_topic (topic : String) : Except PyErr (Option ParsedTopicL) := do
  let full_topic := topic
  let topic_parts := splitSlash topic
  if topic_parts.length < 3 then
    pure none
  else if topic_parts.length = 3 ∧ topic_parts.getD 2 "" ≠ "heartbeat" then
    pure none
  else do
    let installation_id ← listGet topic_parts 1
    let device_type? ← topic_to_device_type topic_parts
    let wildcard_topic_parts := topic_parts.set 1 "##installation_id##"
    match device_type? with
    | none => pure none
    | some device_type =>
        if topic_parts.length = 3 then
          let w := normalize_topic (joinSlash wildcard_topic_parts)
          pure (some ⟨installation_id, "0", device_type, w, w, full_topic⟩)
        else do
          let device_id ← listGet topic_parts 3
          let wp2 := wildcard_topic_parts.set 3 "##device_id##"
          let wwith := normalize_topic (joinSlash wp2)
          let wp3 := wp2.set 2 "##device_type##"
          let wwithout := normalize_topic (joinSlash wp3)
          pure (some ⟨installation_id, device_id, device_type, wwith, wwithout, full_topic⟩)

/-- `ParsedTopic._get_next_Phase` from `data_classes.py`: the phase rotation
`L1 -> L2 -> L3 -> L1`, raising `ValueError` on anything else. -/
def getNextPhase (phase : String) : Except PyErr String :=
  if phase = "L1" then .ok "L2"
  else if phase = "L2" then .ok "L3"
  else if phase = "L3" then .ok "L1"
  else .error .valueError

/-- A decoded metric value (the Python value stored in `Metric._value`). -/
inductive PyVal where
  | pnone
  | pbool (b : Bool)
  | pint (n : Int)
  | pfloat (q : Rat)
  | pstr (s : String)
  | penum (e : EnumMember)
  deriving DecidableEq, Repr

/-- Numeric view of a value (`bool` is an `int` subclass in Python). -/
def PyVal.toRat? : PyVal → Option Rat
  | .pbool b => some (if b then 1 else 0)
  | .pint n => some (n : Rat)
  | .pfloat q => some q
  | _ => none

/-- Model of `isinstance(value, (float, int))` (true for `bool` as well). -/
def PyVal.isNumeric (v : PyVal) : Bool :=
  v.toRat?.isSome

/-- Python `==` on stored metric values: numeric values compare across types
(`1 == 1.0 == True`), everything else by structural equality. -/
def pyEq (a b : PyVal) : Bool :=
  match a.toRat?, b.toRat? with
  | some x, some y => x = y
  | _, _ =>
      match a, b with
      | .pnone, .pnone => true
      | .pstr s, .pstr t => s = t
      | .penum e, .penum f => e = f
      | _, _ => false

/-- Model of `str(value)` on a decoded metric value. -/
def pyValStr (v : PyVal) : String :=
  match v with
  | .pnone => "None"
  | .pbool b => if b then "True" else "False"
  | .pint n => toString n
  | .pfloat q => toString q
  | .pstr s => s
  | .penum e => e.string

/-- The mutable per-metric state touched by `Metric._handle_message`. -/
structure MetricState where
  value : PyVal := .pnone
  last_update : Rat := 0
  last_seen : Rat := 0
  deriving DecidableEq, Repr

/-- `Metric._handle_message` from `metric.py`.  Arguments `loop_running` and
`has_on_update` model `event_loop and event_loop.is_running()` and
`callable(self._on_update)`; `now` models `time.time()`.  Returns the updated
state and whether the update callback was scheduled.  The trailing
`_depend_on_me` formula propagation loop is not part of this state
transition (the claims below concern metrics without formula dependents). -/
def handleMessage (freq : Option Rat) (loop_running : Bool) (has_on_update : Bool)
    (st : MetricState) (value : PyVal) (now : Rat) : MetricState × Bool :=
  let st1 := { st with last_seen := now }
  let changed := ! pyEq value st1.value
  let st2 := if changed then { st1 with value := value } else st1
  let changed :=
    if freq = some 0 then true
    else
      match freq with
      | some f =>
          if value.isNumeric then
            if now - st2.last_update < f then false else true
          else changed
      | none => changed
  if changed ∧ loop_running ∧ has_on_update then
    ({ st2 with last_update := now }, true)
  else
    (st2, false)

/-- Model of `round(value, precision)` as applied by
`FormulaMetric._handle_formula`; formula precisions are non-negative, and
`round` on a non-numeric value raises `TypeError`. -/
def pyRoundVal (v : PyVal) (p : Int) : Except PyErr PyVal :=
  match v with
  | .pfloat q => .ok (.pfloat (pyRound q p))
  | .pint n => .ok (.pint n)
  | .pbool b => .ok (.pint (if b then 1 else 0))
  | _ => .error .typeError

/-- `FormulaMetric._handle_formula` from `formula_metric.py`.  `result` is
what the formula function returned: `none` models a Python `None` return
("no value/update"), `some v` the value component of the returned tuple (the
transient/persistent state components are threaded through fields that no
claim observes and are omitted here).  A `None` result is forwarded to
`_handle_message` as the value `None`. -/
def handleFormula (freq : Option Rat) (loop_running : Bool) (has_on_update : Bool)
    (st : MetricState) (precision : Option Int) (result : Option PyVal) (now : Rat) :
    Except PyErr (MetricState × Bool) :=
  match result with
  | none => .ok (handleMessage freq loop_running has_on_update st .pnone now)
  | some value => do
      let value ← match precision with
        | some p => pyRoundVal value p
        | none => pure value
      pure (handleMessage freq loop_running has_on_update st value now)

/-- Characters matched by `[a-zA-Z0-9_]` in the range-placeholder regex. -/
def isNameChar (c : Char) : Bool :=
  c.isAlpha || c.isDigit || c = '_'

/-- Value of a digit string, as `int` computes it. -/
def digitsToNat (cs : List Char) : Nat :=
  cs.foldl (fun a c => a * 10 + (c.toNat - '0'.toNat)) 0

/-- Attempt to match the regex `\{([a-zA-Z0-9_]+)\((\d+)-(\d+)\)\}` at the
head of the character list, returning the captured name, the two bounds and
the remaining characters (with a proof that the match consumed at least one
character, so scanning terminates). -/
def rangeMatchAt (cs : List Char) :
    Option ((String × Nat × Nat) × { rest : List Char // rest.length < cs.length }) :=
  match cs with
  | [] => none
  | c :: after0 =>
      if c = '\x7b' then
        let name := after0.takeWhile isNameChar
        let r1 := after0.dropWhile isNameChar
        if name.isEmpty then none
        else if r1.head? = some '(' then
          let r2 := r1.tail
          let d1 := r2.takeWhile Char.isDigit
          let r3 := r2.dropWhile Char.isDigit
          if d1.isEmpty then none
          else if r3.head? = some '-' then
            let r4 := r3.tail
            let d2 := r4.takeWhile Char.isDigit
            let r5 := r4.dropWhile Char.isDigit
            if d2.isEmpty then none
            else if r5.head? = some ')' ∧ r5.tail.head? = some '\x7d' then
              some ((String.mk name, digitsToNat d1, digitsToNat d2),
                ⟨r5.tail.tail, by
                  have e1 : r1.length ≤ after0.length :=
                    (after0.dropWhile_sublist isNameChar).length_le
                  have e2 : r2.length ≤ r1.length := by
                    show r1.tail.length ≤ r1.length
                    rw [List.length_tail]
                    omega
                  have e3 : r3.length ≤ r2.length :=
                    (r2.dropWhile_sublist Char.isDigit).length_le
                  have e4 : r4.length ≤ r3.length := by
                    show r3.tail.length ≤ r3.length
                    rw [List.length_tail]
                    omega
                  have e5 : r5.length ≤ r4.length :=
                    (r4.dropWhile_sublist Char.isDigit).length_le
                  have e6 : r5.tail.tail.length ≤ r5.length := by
                    rw [List.length_tail, List.length_tail]
                    omega
                  simp only [List.length_cons]
                  omega⟩)
            else none
          else none
        else none
      else none

/-- Model of `pattern.finditer` for the range-placeholder regex: the list of
`(name, start, end)` captures of the non-overlapping left-to-right matches. -/
def rangeMatches : List Char → List (String × Nat × Nat)
  | [] => []
  | c :: cs =>
      match rangeMatchAt (c :: cs) with
      | some (m, ⟨rest, _⟩) => m :: rangeMatches rest
      | none => rangeMatches cs
termination_by cs => cs.length
decreasing_by
  · exact ‹(_ : List Char).length < _›
  · simp

/-- Model of `pattern.sub(repl, s)` for the range-placeholder regex:
replace every non-overlapping left-to-right match by `repl`. -/
def rangeSub (repl : List Char) : List Char → List Char
  | [] => []
  | c :: cs =>
      match rangeMatchAt (c :: cs) with
      | some (_, ⟨rest, _⟩) => repl ++ rangeSub repl rest
      | none => c :: rangeSub repl cs
termination_by cs => cs.length
decreasing_by
  · exact ‹(_ : List Char).length < _›
  · simp

/-- `Hub.expand_topic_list` from `hub.py`: descriptors whose topic matches
the range-placeholder regex are expanded into one descriptor per integer in
the inclusive range, with the placeholder substituted and `key_values`
replaced by the single captured binding; other descriptors pass through. -/
def expand_topic_list (topic_list : List TopicDescriptor) : List TopicDescriptor :=
  topic_list.flatMap (fun td =>
    match rangeMatches td.topic.data with
    | [] => [td]
    | (key, start, stop) :: _ =>
        (List.range' start (stop + 1 - start)).map (fun i =>
          { td with
            topic := String.mk (rangeSub (toString i).data td.topic.data),
            key_values := [(key, toString i)] }))

/-- `Hub.get_keepalive_echo` from `hub.py`: `json.loads` (unguarded) followed
by `.get("full-publish-completed-echo", None)`; an absent field is modelled
as JSON null, matching Python `None`. -/
def get_keepalive_echo (value : Payload) : Except PyErr JValue := do
  let publish_completed_message ← jsonLoads value
  dictGet publish_completed_message "full-publish-completed-echo"

/-- `unwrap_epoch` from `_unwrappers.py`, with timestamps kept as rationals
(`datetime.fromtimestamp` is modelled as the identity on the numeric
value). -/
def unwrap_epoch (p : Payload) : Except PyErr (Option Rat) :=
  pyCatch stdCaught
    (do
      let data ← jsonLoads p
      let val ← getItem data "value"
      if val.isNull then pure none
      else do
        let q ← pyFloat val
        pure (some q))
    none

/-- Association-list lookup, modelling Python `dict.get`. -/
def alistGet (l : List (String × α)) (k : String) : Option α :=
  (l.find? (fun e => e.1 = k)).map (fun e => e.2)

/-- Association-list insert/overwrite, modelling Python `dict[k] = v`
(insertion order preserved on overwrite, as in Python dicts). -/
def alistPut (l : List (String × α)) (k : String) (v : α) : List (String × α) :=
  if (l.find? (fun e => e.1 = k)).isSome then
    l.map (fun e => if e.1 = k then (k, v) else e)
  else
    l ++ [(k, v)]

/-- One step of the `{key}` template substitution used by
`ParsedTopic.replace_ids` (regex `\{([^{}]+)\}`): fuel-indexed left-to-right
scan; with fuel at least the input length the scan never runs out. -/
def replaceIdsGo (kv : List (String × String)) : Nat → List Char → List Char
  | 0, cs => cs
  | _ + 1, [] => []
  | fuel + 1, '\x7b' :: cs =>
      let key := cs.takeWhile (fun c => c ≠ '\x7b' ∧ c ≠ '\x7d')
      let rest := cs.dropWhile (fun c => c ≠ '\x7b' ∧ c ≠ '\x7d')
      match rest with
      | '\x7d' :: rest2 =>
          if key.isEmpty then '\x7b' :: replaceIdsGo kv fuel cs
          else
            match kv.find? (fun e => e.1 = String.mk key) with
            | some e => e.2.data ++ replaceIdsGo kv fuel rest2
            | none => '\x7b' :: (key ++ '\x7d' :: replaceIdsGo kv fuel rest2)
      | _ => '\x7b' :: replaceIdsGo kv fuel cs
  | fuel + 1, c :: cs => c :: replaceIdsGo kv fuel cs

/-- `ParsedTopic.replace_ids` from `data_classes.py`: substitute each
`{key}` whose key is bound in `key_values`, leaving unknown placeholders
unchanged. -/
def replace_ids (s : String) (kv : List (String × String)) : String :=
  String.mk (replaceIdsGo kv (s.data.length + 1) s.data)

/-- Strip one leading `{` and one trailing `}` (Python `part.strip("{}")`
on a part that starts and ends with braces). -/
def stripBraces (s : String) : String :=
  String.mk (((s.data.dropWhile (fun c => c = '\x7b' ∨ c = '\x7d')).reverse.dropWhile
    (fun c => c = '\x7b' ∨ c = '\x7d')).reverse)

/-- `ParsedTopic.get_key_values` from `data_classes.py`: map each `{name}`
segment of the descriptor topic to the segment at the same index of the full
topic (an out-of-range index raises `IndexError`), then apply the
`next_phase` hack when a `phase` key was captured. -/
def get_key_values (pt_full_topic : String) (desc_topic : String) :
    Except PyErr (List (String × String)) := do
  let topic_parts := splitSlash pt_full_topic
  let topic_descriptor_parts := splitSlash desc_topic
  let base ← (List.range topic_descriptor_parts.length).foldlM
    (fun (acc : List (String × String)) i => do
      let part := topic_descriptor_parts.getD i ""
      if strStartsWith part "\x7b" ∧ strEndsWith part "\x7d" then do
        let v ← listGet topic_parts i
        pure (alistPut acc (stripBraces part) v)
      else
        pure acc) []
  match alistGet base "phase" with
  | some ph => do
      let np ← getNextPhase ph
      pure (alistPut base "next_phase" np)
  | none => pure base

/-- The fields computed by `ParsedTopic.finalize_topic_fields`. -/
structure FinalizedFields where
  key_values : List (String × String)
  short_id : String
  name : String
  deriving DecidableEq, Repr

/-- The `f"{device_type.code}_{device_id}"` short unique id of a device. -/
def deviceShortUid (pt : ParsedTopicL) : String :=
  pt.device_type.code ++ "_" ++ pt.device_id

/-- The hub-wide unique id of a metric,
`f"{device.short_unique_id}_{short_id}"`. -/
def hubUniqueId (pt : ParsedTopicL) (short_id : String) : String :=
  deviceShortUid pt ++ "_" ++ short_id

/-- `ParsedTopic.finalize_topic_fields` from `data_classes.py`: capture the
key values, merge the descriptor's static `key_values` over them, and expand
the short-id and name templates. -/
def finalize_topic_fields (pt : ParsedTopicL) (desc : TopicDescriptor) :
    Except PyErr FinalizedFields := do
  let kv0 ← get_key_values pt.full_topic desc.topic
  let kv := desc.key_values.foldl (fun acc e => alistPut acc e.1 e.2) kv0
  let short_id := replace_ids desc.short_id kv
  let name := replace_ids (desc.name.getD "") kv
  pure ⟨kv, short_id, name⟩

/-- `Device._unwrap_payload` from `device.py`: dispatch through
`VALUE_TYPE_UNWRAPPER` by the descriptor's value type.  A missing value type
fails the assertion; `FLOAT_M3_TO_LITERS` has no entry in the dispatch dict,
so looking it up raises `KeyError`. -/
def unwrap_payload (desc : TopicDescriptor) (payload : Payload) :
    Except PyErr (Option PyVal) :=
  match desc.value_type with
  | none => .error .valueError
  | some vt =>
      match vt with
      | .vINT => (unwrap_int payload).map (fun o => o.map .pint)
      | .vINT_DEFAULT_0 => (unwrap_int_default_0 payload).map (fun n => some (.pint n))
      | .vFLOAT => (unwrap_float payload desc.precision).map (fun o => o.map .pfloat)
      | .vSTRING => (unwrap_string payload).map (fun o => o.map .pstr)
      | .vENUM => (unwrap_enum payload desc.enum).map (fun o => o.map .penum)
      | .vBITMASK => (unwrap_bitmask payload desc.enum).map (fun o => o.map .pstr)
      | .vEPOCH => (unwrap_epoch payload).map (fun o => o.map .pfloat)
      | .vINT_SECONDS_TO_HOURS =>
          (unwrap_int_seconds_to_hours payload desc.precision).map (fun o => o.map .pfloat)
      | .vINT_SECONDS_TO_MINUTES =>
          (unwrap_int_seconds_to_minutes payload desc.precision).map (fun o => o.map .pfloat)
      | .vFLOAT_M3_TO_LITERS => .error .keyError

/-- A buffered `MetricPlaceholder` from `device.py`. -/
structure MetricPlaceholderL where
  device_key : String
  hub_unique_id : String
  full_topic : String
  short_id : String
  key_values : List (String × String)
  descRef : Nat
  payload : Payload
  value : PyVal

/-- A buffered `FallbackPlaceholder` (adjustable-flag companion) from
`device.py`. -/
structure FallbackPlaceholderL where
  device_key : String
  hub_unique_id : String
  full_topic : String
  descRef : Nat
  value : Bool
  deriving DecidableEq, Repr

/-- A committed `Metric` object, reduced to the fields the claims observe.
Descriptors live in a shared object heap (`List TopicDescriptor`), and
`descRef` is the Python reference to this metric's descriptor. -/
structure MetricObj where
  descRef : Nat
  short_id : String
  hub_unique_id : String
  has_on_update : Bool := false
  st : MetricState := {}
  deriving DecidableEq, Repr

/-- A `Device` object, reduced to the fields the claims observe. -/
structure DeviceState where
  short_unique_id : String
  device_type_code : String
  descRef : Nat
  metrics : List (String × MetricObj) := []
  props : List (String × String) := []
  deriving DecidableEq, Repr

/-- The default used to read from the descriptor heap; heap references are
always in range in the modelled runs. -/
def defaultDescriptor : TopicDescriptor :=
  { topic := "", message_type := .sensor, short_id := "" }

/-- Read a descriptor from the object heap. -/
def heapGet (heap : List TopicDescriptor) (r : Nat) : TopicDescriptor :=
  heap.getD r defaultDescriptor

/-- The mutable `Hub` state touched by the message pipeline. -/
structure HubState where
  heap : List TopicDescriptor
  topic_map : List (String × List Nat)
  fallback_map : List (String × List Nat)
  pending_formula_topics : List TopicDescriptor := []
  client_id : String
  update_frequency_seconds : Option Rat := none
  loop_running : Bool := true
  devices : List (String × DeviceState) := []
  metrics_placeholders : List (String × MetricPlaceholderL) := []
  fallback_placeholders : List (String × FallbackPlaceholderL) := []
  all_metrics : List (String × MetricObj) := []
  first_full_publish : Bool := true
  first_refresh_set : Bool := false

/-- Lookup in one of the normalized-shape multi-maps built by `Hub.__init__`
(`topic_map` / `fallback_map`), whose values are lists of descriptor heap
references. -/
def mapGet (m : List (String × List Nat)) (k : String) : Option (List Nat) :=
  alistGet m k

/-- `ParsedTopic.match_from_list` from `data_classes.py`: re-template the
installation-id and device-id segments of the full topic and return the
first candidate whose literal pattern equals it. -/
def match_from_list (heap : List TopicDescriptor) (pt : ParsedTopicL)
    (topic_desc_list : List Nat) : Except PyErr (Option Nat) := do
  let topic_parts := splitSlash pt.full_topic
  let tp1 ← listSet topic_parts 1 "\x7binstallation_id\x7d"
  let tp2 ← listSet tp1 3 "\x7bdevice_id\x7d"
  let normalized_topic := joinSlash tp2
  pure (topic_desc_list.find? (fun r => (heapGet heap r).topic = normalized_topic))

/-- The four-step descriptor lookup of `Hub._handle_normal_message`:
primary map with device type, primary map without device type, fallback map
with device type, fallback map without device type, stopping at the first
hit; the boolean is the `fallback_to_metric_topic` flag. -/
def descListLookup (topic_map fallback_map : List (String × List Nat))
    (pt : ParsedTopicL) : Option (List Nat × Bool) :=
  match mapGet topic_map pt.wildcards_with_device_type with
  | some l => some (l, false)
  | none =>
      match mapGet topic_map pt.wildcards_without_device_type with
      | some l => some (l, false)
      | none =>
          match mapGet fallback_map pt.wildcards_with_device_type with
          | some l => some (l, true)
          | none =>
              match mapGet fallback_map pt.wildcards_without_device_type with
              | some l => some (l, true)
              | none => none

/-- Descriptor resolution of `Hub._handle_normal_message`: the four-step
lookup followed by literal disambiguation when the candidate list has more
than one entry. -/
def resolveDescriptor (heap : List TopicDescriptor)
    (topic_map fallback_map : List (String × List Nat)) (pt : ParsedTopicL) :
    Except PyErr (Option (Nat × Bool)) :=
  match descListLookup topic_map fallback_map pt with
  | none => .ok none
  | some (desc_list, fb) =>
      if desc_list.length = 1 then .ok (some (desc_list.headD 0, fb))
      else do
        let d? ← match_from_list heap pt desc_list
        match d? with
        | none => .ok none
        | some r => .ok (some (r, fb))

/-- Modelled from the spec: the lookup contract in the spec's own words —
"try the primary map first, then the fallback map, in a fixed precedence
order (with-device-type-primary, without-device-type-primary,
with-device-type-fallback, without-device-type-fallback)", taking the first
hit.  Stated independently of the source embedding for the refinement proof
of claim C4. -/
def fourLookupSpec (topic_map fallback_map : List (String × List Nat))
    (pt : ParsedTopicL) : Option (List Nat × Bool) :=
  (((mapGet topic_map pt.wildcards_with_device_type).map (fun l => (l, false))).or
    (((mapGet topic_map pt.wildcards_without_device_type).map (fun l => (l, false))).or
      (((mapGet fallback_map pt.wildcards_with_device_type).map (fun l => (l, true))).or
        ((mapGet fallback_map pt.wildcards_without_device_type).map (fun l => (l, true))))))

/-- Outcome of `Device.handle_message`: a buffered metric placeholder, a
buffered fallback placeholder, or nothing. -/
inductive PlaceholderOut where
  | metricP (mp : MetricPlaceholderL)
  | fallbackP (fp : FallbackPlaceholderL)
  | nothing

/-- `Device.handle_message` from `device.py`: attribute topics set device
properties; fallback-resolved topics produce a `FallbackPlaceholder` from
`unwrap_bool`; other topics decode the payload and either update an existing
metric or produce a `MetricPlaceholder`.  Null decodes are ignored. -/
def device_handle_message (heap : List TopicDescriptor) (freq : Option Rat)
    (loop_running : Bool) (dev : DeviceState) (fallback_to_metric_topic : Bool)
    (pt : ParsedTopicL) (descRef : Nat) (payload : Payload) (now : Rat) :
    Except PyErr (DeviceState × PlaceholderOut) := do
  let desc := heapGet heap descRef
  if desc.message_type = .attribute then do
    let v? ← unwrap_payload desc payload
    match v? with
    | none => pure (dev, .nothing)
    | some v =>
        pure ({ dev with props := alistPut dev.props desc.short_id (pyValStr v) }, .nothing)
  else do
    let ft ← finalize_topic_fields pt desc
    if fallback_to_metric_topic then do
      let b? ← unwrap_bool payload
      match b? with
      | none => pure (dev, .nothing)
      | some b =>
          pure (dev, .fallbackP
            ⟨deviceShortUid pt, hubUniqueId pt ft.short_id, pt.full_topic, descRef, b⟩)
    else do
      let v? ← unwrap_payload desc payload
      match v? with
      | none => pure (dev, .nothing)
      | some v =>
          match alistGet dev.metrics ft.short_id with
          | some m =>
              let r := handleMessage freq loop_running m.has_on_update m.st v now
              pure ({ dev with
                metrics := alistPut dev.metrics ft.short_id { m with st := r.1 } }, .nothing)
          | none =>
              pure (dev, .metricP
                ⟨deviceShortUid pt, hubUniqueId pt ft.short_id, pt.full_topic,
                 ft.short_id, ft.key_values, descRef, payload, v⟩)

/-- `Hub._handle_normal_message` from `hub.py`: parse the topic, resolve a
descriptor, get or create the device, let it handle the message, and buffer
any resulting placeholder.  Unparseable topics and unresolved descriptors
drop the message with the state unchanged. -/
def handle_normal_message (st : HubState) (topic : String) (payload : Payload)
    (now : Rat) : Except PyErr HubState := do
  let pt? ← from_topic topic
  match pt? with
  | none => pure st
  | some pt => do
      let res ← resolveDescriptor st.heap st.topic_map st.fallback_map pt
      match res with
      | none => pure st
      | some (descRef, fallback_flag) => do
          let short_uid := deviceShortUid pt
          let dev :=
            match alistGet st.devices short_uid with
            | some d => d
            | none => ⟨short_uid, pt.device_type.code, descRef, [], []⟩
          let devices1 :=
            match alistGet st.devices short_uid with
            | some _ => st.devices
            | none => alistPut st.devices short_uid dev
          let r ← device_handle_message st.heap st.update_frequency_seconds
            st.loop_running dev fallback_flag pt descRef payload now
          let devices2 := alistPut devices1 short_uid r.1
          match r.2 with
          | .nothing => pure { st with devices := devices2 }
          | .metricP mp =>
              pure ({ st with
                      devices := devices2,
                      metrics_placeholders :=
                        alistPut st.metrics_placeholders mp.hub_unique_id mp })
          | .fallbackP fp =>
              pure ({ st with
                      devices := devices2,
                      fallback_placeholders :=
                        alistPut st.fallback_placeholders fp.hub_unique_id fp })

/-- `Device._is_same_adjustable_topics` from `device.py`: equality of the
topics with their last segment removed (`topic.rsplit('/', 1)[0]`). -/
def sameAdjustableTopics (topic adjustable_topic : String) : Bool :=
  let p1 := splitSlash topic
  let p2 := splitSlash adjustable_topic
  joinSlash p1.dropLast = joinSlash p2.dropLast

/-- Python truthiness of an optional string (`None` and `""` are falsy). -/
def truthyOptStr : Option String → Bool
  | none => false
  | some s => s ≠ ""

/-- `Device._create_metric_from_placeholder` from `device.py`, with the
descriptor heap threaded explicitly so that `copy.deepcopy` (allocate a new
heap entry) is distinguished from in-place mutation of the shared table
entry.  Returns the grown heap and the committed metric. -/
def create_metric_from_placeholder (heap : List TopicDescriptor)
    (freq : Option Rat) (loop_running : Bool) (mp : MetricPlaceholderL)
    (fallback_placeholders : List FallbackPlaceholderL) (now : Rat) :
    Except PyErr (List TopicDescriptor × MetricObj) := do
  let r0 := mp.descRef
  let step1 : List TopicDescriptor × Nat :=
    if truthyOptStr (heapGet heap r0).is_adjustable_suffix then
      match fallback_placeholders.find?
          (fun fp => sameAdjustableTopics fp.full_topic mp.full_topic) with
      | some fp =>
          if fp.value = false then
            let heap1 := heap ++ [heapGet heap r0]
            let rn := heap.length
            (heap1.set rn { heapGet heap1 rn with message_type := .sensor }, rn)
          else (heap, r0)
      | none => (heap, r0)
    else (heap, r0)
  let heap := step1.1
  let r := step1.2
  let step2 ←
    if (heapGet heap r).min_max_range = .dynamic then do
      let max_value? ← unwrap_float mp.payload (heapGet heap r).precision "max"
      let stepa : List TopicDescriptor × Nat :=
        match max_value? with
        | some q =>
            let heap1 := heap ++ [heapGet heap r]
            let rn := heap.length
            (heap1.set rn { heapGet heap1 rn with max := some ((ratTrunc q : Int) : Rat) }, rn)
        | none => (heap, r)
      let min_value? ← unwrap_float mp.payload (heapGet stepa.1 stepa.2).precision "min"
      pure (match min_value? with
        | some q =>
            let heap1 := stepa.1 ++ [heapGet stepa.1 stepa.2]
            let rn := stepa.1.length
            (heap1.set rn { heapGet heap1 rn with min := some ((ratTrunc q : Int) : Rat) }, rn)
        | none => stepa)
    else pure (heap, r)
  let heap := step2.1
  let r := step2.2
  let m0 : MetricObj :=
    { descRef := r, short_id := mp.short_id, hub_unique_id := mp.hub_unique_id }
  let hm := handleMessage freq loop_running m0.has_on_update m0.st mp.value now
  pure (heap, { m0 with st := hm.1 })

/-- Whether a committed metric is writable: `WritableMetric` is instantiated
exactly for the switch/number/select/button/time kinds. -/
def writableKind (k : MetricKind) : Bool :=
  k ∈ [MetricKind.switch, MetricKind.number, MetricKind.select,
       MetricKind.button, MetricKind.time]

/-- `Hub.is_regular_dependency_met` from `hub.py`: every declared dependency
resolves (after key substitution) to a committed metric or a buffered
placeholder. -/
def is_regular_dependency_met (heap : List TopicDescriptor)
    (all_metrics : List (String × MetricObj))
    (metrics_placeholders : List (String × MetricPlaceholderL))
    (mp : MetricPlaceholderL) : Bool :=
  (heapGet heap mp.descRef).depends_on.all (fun dependency =>
    let metric_name := replace_ids dependency mp.key_values
    (alistGet all_metrics metric_name).isSome ∨
      (alistGet metrics_placeholders metric_name).isSome)

/-- A formula function: from the dependency metrics to an optional value
(the model of the functions in `_victron_formulas.py`; `none` is a Python
`None` return). -/
abbrev FormulaFn := List (String × MetricObj) → Option PyVal

/-- `Hub.is_formula_dependency_met` from `hub.py`: all declared dependencies
of a formula topic must already be committed metrics of the device. -/
def is_formula_dependency_met (all_metrics : List (String × MetricObj))
    (topic : TopicDescriptor) (dev : DeviceState) :
    Bool × List (String × MetricObj) :=
  let deps := topic.depends_on.foldl
    (fun (acc : Option (List (String × MetricObj))) dependency =>
      match acc with
      | none => none
      | some l =>
          let metric_name := dev.short_unique_id ++ "_" ++ dependency
          match alistGet all_metrics metric_name with
          | none => none
          | some m => some (l ++ [(metric_name, m)]))
    (some [])
  match deps with
  | none => (false, [])
  | some l => (true, l)

/-- The placeholder-commit and formula-activation pass of
`Hub._handle_full_publish_message` (everything after the echo gate):
commit every dependency-met buffered placeholder, clear both placeholder
maps, then activate pending formula topics whose dependencies are met on
devices of the matching type.  `ftab` models the `getattr(formulas, name)`
dynamic dispatch. -/
def commitPass (ftab : String → FormulaFn) (st : HubState) (now : Rat) :
    Except PyErr HubState := do
  let fallback_placeholders_list := st.fallback_placeholders.map (fun e => e.2)
  let committed ← st.metrics_placeholders.foldlM
    (fun (acc : List TopicDescriptor × List (String × DeviceState) ×
        List (String × MetricObj) × Nat) entry => do
      let (heap, devices, all_metrics, n) := acc
      let mp := entry.2
      if is_regular_dependency_met heap all_metrics st.metrics_placeholders mp then do
        let r ← create_metric_from_placeholder heap st.update_frequency_seconds
          st.loop_running mp fallback_placeholders_list now
        let heap' := r.1
        let metric := r.2
        let devices' :=
          match alistGet devices mp.device_key with
          | some d => alistPut devices mp.device_key
              { d with metrics := alistPut d.metrics metric.short_id metric }
          | none => devices
        pure (heap', devices', alistPut all_metrics metric.hub_unique_id metric, n + 1)
      else
        pure acc)
    (st.heap, st.devices, st.all_metrics, 0)
  let st1 : HubState := { st with
    heap := committed.1,
    devices := committed.2.1,
    all_metrics := committed.2.2.1,
    metrics_placeholders := [],
    fallback_placeholders := [] }
  let new_count := committed.2.2.2
  let st2 ←
    if 0 < new_count then
      st.pending_formula_topics.foldlM
        (fun (acc : HubState) topic => do
          let relevant_devices := acc.devices.filter
            (fun e => e.2.device_type_code = (splitSlash topic.topic).getD 1 "")
          relevant_devices.foldlM
            (fun (acc2 : HubState) deve => do
              let dev := deve.2
              let metric_name := dev.short_unique_id ++ "_" ++ topic.short_id
              if (alistGet acc2.all_metrics metric_name).isSome then
                pure acc2
              else
                match is_formula_dependency_met acc2.all_metrics topic dev with
                | (false, _) => pure acc2
                | (true, dependencies) => do
                    let fn := ftab ((splitSlash topic.topic).getLastD "")
                    let m0 : MetricObj :=
                      { descRef := 0, short_id := topic.short_id,
                        hub_unique_id := metric_name }
                    let hf ← handleFormula acc2.update_frequency_seconds
                      acc2.loop_running m0.has_on_update m0.st topic.precision
                      (fn dependencies) now
                    let metric := { m0 with st := hf.1 }
                    let devices' := alistPut acc2.devices deve.1
                      { dev with metrics := alistPut dev.metrics metric.short_id metric }
                    pure ({ acc2 with
                            devices := devices',
                            all_metrics :=
                              alistPut acc2.all_metrics metric_name metric }))
            acc)
        st1
    else
      pure st1
  pure { st2 with
    first_full_publish := false,
    first_refresh_set := st2.first_refresh_set ∨ st2.loop_running }

/-- `Hub._handle_full_publish_message` from `hub.py`: extract the keepalive
echo from the payload; when a truthy echo does not start with this client's
id, return with the state unchanged; otherwise run the commit pass. -/
def handle_full_publish_message (ftab : String → FormulaFn) (st : HubState)
    (payload : Payload) (now : Rat) : Except PyErr HubState := do
  let echo ← get_keepalive_echo payload
  if pyBool echo then
    match echo with
    | .jstr e =>
        if ¬ strStartsWith e st.client_id then pure st
        else commitPass ftab st now
    | _ => .error .attributeError
  else
    commitPass ftab st now

/-- The character sequence of a literal range placeholder
`{name(da-db)}`. -/
def placeholderChars (name da db : List Char) : List Char :=
  '\x7b' :: (name ++ '(' :: (da ++ '-' :: (db ++ [')', '\x7d'])))

/-- The `GenericOnOff` enum from `_victron_enums.py`, used as a concrete
enum argument when evaluating the decode functions. -/
def GenericOnOff : List EnumMember :=
  [⟨0, "Off"⟩, ⟨1, "On"⟩]

/-- A formula table with no formulas (scenarios below activate none). -/
def noFormulas : String → FormulaFn := fun _ _ => none

/-- The adjustable `CurrentLimit` descriptor of the concrete
adjustable-pair scenario from the spec (a writable number whose
`is_adjustable_suffix` names its companion flag topic). -/
def c2DataDescriptor : TopicDescriptor :=
  { topic := "N/\x7binstallation_id\x7d/evcharger/\x7bdevice_id\x7d/Ac/In/CurrentLimit",
    message_type := .number,
    short_id := "evcharger_current_limit",
    name := some "Current limit",
    value_type := some .vFLOAT,
    precision := none,
    is_adjustable_suffix := some "CurrentLimitIsAdjustable" }

/-- Initial hub state of the adjustable-pair scenario: the shared descriptor
table holds the single `CurrentLimit` entry, indexed in the primary map
under its data shape and in the fallback map under its merged
adjustable-flag shape (as `Hub.__init__` builds them). -/
def c2InitialState : HubState :=
  { heap := [c2DataDescriptor],
    topic_map := [("N/##installation_id##/evcharger/##device_id##/Ac/In/CurrentLimit", [0])],
    fallback_map :=
      [("N/##installation_id##/evcharger/##device_id##/Ac/In/CurrentLimitIsAdjustable", [0])],
    client_id := "victron_mqtt-abcdefgh-0" }

def c2DataTopic : String := "N/123/evcharger/30/Ac/In/CurrentLimit"

def c2FlagTopic : String := "N/123/evcharger/30/Ac/In/CurrentLimitIsAdjustable"

def c2DataPayload : Payload := some (.jobj [("value", .jint 100)])

def c2FlagPayload (v : JValue) : Payload := some (.jobj [("value", v)])

/-- A full-publish-completed payload whose echo token was generated by this
client (`{client_id}-{counter}`). -/
def c2CompletedPayload : Payload :=
  some (.jobj [("full-publish-completed-echo", .jstr "victron_mqtt-abcdefgh-0-1")])

/-- Deliver the data message and the flag message (in the order selected by
`order`), then fire the full-publish barrier. -/
def c2Run (v : JValue) (order : Bool) : Except PyErr HubState := do
  let m1 := if order then (c2DataTopic, c2DataPayload) else (c2FlagTopic, c2FlagPayload v)
  let m2 := if order then (c2FlagTopic, c2FlagPayload v) else (c2DataTopic, c2DataPayload)
  let s1 ← handle_normal_message c2InitialState m1.1 m1.2 1
  let s2 ← handle_normal_message s1 m2.1 m2.2 2
  handle_full_publish_message noFormulas s2 c2CompletedPayload 3

def c2MetricKey : String := "evcharger_30_evcharger_current_limit"

/-- The message kind of the metric committed by the scenario run. -/
def c2CommittedKind (v : JValue) (order : Bool) : Option MetricKind :=
  match c2Run v order with
  | .ok st => (alistGet st.all_metrics c2MetricKey).map
      (fun m => (heapGet st.heap m.descRef).message_type)
  | .error _ => none

/-- The shared descriptor-table entry after the scenario run. -/
def c2TableEntry (v : JValue) (order : Bool) : Option TopicDescriptor :=
  match c2Run v order with
  | .ok st => some (heapGet st.heap 0)
  | .error _ => none

/-- Whether the committed metric of the scenario run is writable. -/
def c2Writable (v : JValue) (order : Bool) : Option Bool :=
  (c2CommittedKind v order).map writableKind

/-- The `CurrentLimit` descriptor as stored by `Hub.__init__` in `READ_ONLY`
operation mode: the writable kind is downgraded to `SENSOR` on a deep copy,
but `is_adjustable_suffix` is retained (hub.py lines 225-231). -/
def c2ReadOnlyDescriptor : TopicDescriptor :=
  { c2DataDescriptor with message_type := .sensor }

/-- The buffered `CurrentLimit` metric placeholder of the adjustable-pair
scenario, as a direct argument to `create_metric_from_placeholder`. -/
def c2Mp : MetricPlaceholderL :=
  { device_key := "evcharger_30",
    hub_unique_id := c2MetricKey,
    full_topic := c2DataTopic,
    short_id := "evcharger_current_limit",
    key_values := [("installation_id", "123"), ("device_id", "30")],
    descRef := 0,
    payload := c2DataPayload,
    value := .pfloat 100 }

/-- A buffered `CurrentLimitIsAdjustable` fallback placeholder with flag
value `true`. -/
def c2TrueFp : FallbackPlaceholderL :=
  { device_key := "evcharger_30",
    hub_unique_id := "evcharger_30_evcharger_current_limit_is_adjustable",
    full_topic := c2FlagTopic,
    descRef := 0,
    value := true }

/-- A buffered `CurrentLimitIsAdjustable` fallback placeholder with flag
value `false`. -/
def c2FalseFp : FallbackPlaceholderL :=
  { c2TrueFp with value := false }

/-- A hub state with one dependency-free buffered placeholder, used to
observe whether the full-publish handler commits anything. -/
def c7State : HubState :=
  { c2InitialState with
    metrics_placeholders :=
      [(c2MetricKey,
        { device_key := "evcharger_30",
          hub_unique_id := c2MetricKey,
          full_topic := c2DataTopic,
          short_id := "evcharger_current_limit",
          key_values := [("installation_id", "123"), ("device_id", "30")],
          descRef := 0,
          payload := c2DataPayload,
          value := .pfloat 100 })],
    devices :=
      [("evcharger_30",
        { short_unique_id := "evcharger_30", device_type_code := "evcharger",
          descRef := 0 })] }

/-- Number of committed metrics after the full-publish handler runs on
`c7State` with the given payload. -/
def c7CommittedCount (payload : Payload) : Option Nat :=
  match handle_full_publish_message noFormulas c7State payload 3 with
  | .ok st => some st.all_metrics.length
  | .error _ => none

/-- Number of buffered metric placeholders after the full-publish handler
runs on `c7State` with the given payload. -/
def c7RemainingPlaceholders (payload : Payload) : Option Nat :=
  match handle_full_publish_message noFormulas c7State payload 3 with
  | .ok st => some st.metrics_placeholders.length
  | .error _ => none

/-- A descriptor with the switch-output range-placeholder topic from the
topics table, used to witness the expansion theorem.  Its surrounding text
carries the ordinary `\x7binstallation_id\x7d` / `\x7bdevice_id\x7d`
placeholders, which contain no parenthesis. -/
def c6Descriptor : TopicDescriptor :=
  { defaultDescriptor with
    topic := "N/\x7binstallation_id\x7d/switch/\x7bdevice_id\x7d/SwitchableOutput/output_\x7boutput(1-4)\x7d/State" }

theorem listGet_ok {α : Type} (l : List α) (i : Nat) (h : i < l.length) :
    listGet l i = .ok l[i] := by
  simp [listGet, List.getElem?_eq_getElem h]

theorem listGet_exists {α : Type} (l : List α) (i : Nat) (h : i < l.length) :
    ∃ v, listGet l i = .ok v :=
  ⟨l[i], listGet_ok l i h⟩

theorem pyEq_pnone_iff (x : PyVal) : pyEq .pnone x = true ↔ x = .pnone := by
  cases x <;> simp [pyEq, PyVal.toRat?]

/-- C10: `_get_next_Phase` is a cyclic permutation of order 3 on
`{L1, L2, L3}`: on each phase it returns another phase of the set, distinct
from its input, three applications are the identity, and on any string
outside the set it raises `ValueError`. -/
theorem c10_phase_rotation :
    (∀ p : String, (p = "L1" ∨ p = "L2" ∨ p = "L3") →
      ∃ q, getNextPhase p = .ok q ∧ (q = "L1" ∨ q = "L2" ∨ q = "L3") ∧ q ≠ p ∧
        (getNextPhase q).bind getNextPhase = .ok p)
    ∧ (∀ p : String, ¬ (p = "L1" ∨ p = "L2" ∨ p = "L3") →
      getNextPhase p = .error .valueError) := by
  constructor
  · rintro p (rfl | rfl | rfl)
    · exact ⟨"L2", by decide, by decide, by decide, by decide⟩
    · exact ⟨"L3", by decide, by decide, by decide, by decide⟩
    · exact ⟨"L1", by decide, by decide, by decide, by decide⟩
  · intro p h
    push_neg at h
    simp [getNextPhase, h.1, h.2.1, h.2.2]

theorem c10_phase_rotation_witness :
    (∃ q, getNextPhase "L1" = .ok q ∧ (q = "L1" ∨ q = "L2" ∨ q = "L3") ∧ q ≠ "L1" ∧
      (getNextPhase q).bind getNextPhase = .ok "L1")
    ∧ getNextPhase "L9" = .error .valueError :=
  ⟨c10_phase_rotation.1 "L1" (by decide), c10_phase_rotation.2 "L9" (by decide)⟩

/-- C8 counterexample: `from_topic` is not total — on the four-segment
settings topic `N/x/settings/0` the device-type helper reads segment index 5
and raises `IndexError`, so no `ParsedTopic`-or-null result exists. -/
theorem c8_counterexample : ¬ ∃ r, from_topic "N/x/settings/0" = .ok r := by
  rintro ⟨r, h⟩
  have hx : from_topic "N/x/settings/0" = .error .indexError := by decide
  rw [hx] at h
  cases h

theorem exceptBindOk {ε α β : Type} (a : α) (f : α → Except ε β) :
    (Except.ok a >>= f) = f a := rfl

theorem exceptBindErr {ε α β : Type} (e : ε) (f : α → Except ε β) :
    ((Except.error e : Except ε α) >>= f) = .error e := rfl

theorem getD_eq_getElem {α : Type} (l : List α) (i : Nat) (d : α) (h : i < l.length) :
    l.getD i d = l[i] := by
  simp [List.getD, List.getElem?_eq_getElem h]

theorem ttdt_total (parts : List String) (h3 : 3 ≤ parts.length)
    (hsafe : parts.getD 0 "" = "$$func" ∨ parts.getD 2 "" ≠ "settings" ∨
      6 ≤ parts.length) :
    ∃ o, topic_to_device_type parts = .ok o := by
  have hb0 : (0 : Nat) < parts.length := by omega
  have hb1 : (1 : Nat) < parts.length := by omega
  have hb2 : (2 : Nat) < parts.length := by omega
  unfold topic_to_device_type
  rw [listGet_ok parts 0 hb0, exceptBindOk]
  by_cases hf : parts[0] = "$$func"
  · rw [if_pos hf, listGet_ok parts 1 hb1, exceptBindOk]
    exact ⟨_, rfl⟩
  · rw [if_neg hf]
    by_cases hhb : parts.length = 3 ∧ parts.getD 2 "" = "heartbeat"
    · rw [if_pos hhb]
      exact ⟨_, rfl⟩
    · rw [if_neg hhb, if_neg (by omega)]
      rw [listGet_ok parts 2 hb2, exceptBindOk]
      by_cases hs : parts[2] = "settings"
      · have h6 : 6 ≤ parts.length := by
          rcases hsafe with h | h | h
          · exact absurd (by rw [getD_eq_getElem parts 0 "" hb0] at h; exact h) hf
          · rw [getD_eq_getElem parts 2 "" hb2] at h
            exact absurd hs h
          · exact h
        rw [if_pos hs, listGet_ok parts 5 (by omega), exceptBindOk]
        exact ⟨_, rfl⟩
      · rw [if_neg hs]
        exact ⟨_, rfl⟩

/-- C8 (amended): `from_topic` never raises and returns a `ParsedTopic` or
null — for short topics (fewer than 3 segments, or exactly 3 without the
heartbeat marker) and unknown device types it returns null — provided the
topic is not a non-formula `settings` topic with fewer than 6 segments, on
which it raises `IndexError` instead (see the counterexample). -/
theorem c8_from_topic_total (topic : String)
    (hsafe : (splitSlash topic).getD 0 "" = "$$func" ∨
      (splitSlash topic).length ≤ 3 ∨
      (splitSlash topic).getD 2 "" ≠ "settings" ∨
      6 ≤ (splitSlash topic).length) :
    (∃ r : Option ParsedTopicL, from_topic topic = .ok r)
    ∧ ((splitSlash topic).length < 3 → from_topic topic = .ok none)
    ∧ ((splitSlash topic).length = 3 → (splitSlash topic).getD 2 "" ≠ "heartbeat" →
        from_topic topic = .ok none)
    ∧ (3 ≤ (splitSlash topic).length →
        topic_to_device_type (splitSlash topic) = .ok none → from_topic topic = .ok none) := by
  unfold from_topic
  by_cases h3 : (splitSlash topic).length < 3
  · rw [if_pos h3]
    exact ⟨⟨none, rfl⟩, fun _ => rfl, fun he => absurd he (by omega), fun hge => by omega⟩
  · rw [if_neg h3]
    by_cases hh : (splitSlash topic).length = 3 ∧ (splitSlash topic).getD 2 "" ≠ "heartbeat"
    · rw [if_pos hh]
      exact ⟨⟨none, rfl⟩, fun hc => absurd hc h3, fun _ _ => rfl, fun _ _ => rfl⟩
    · rw [if_neg hh]
      have hge : 3 ≤ (splitSlash topic).length := by omega
      rw [listGet_ok _ 1 (by omega), exceptBindOk]
      have hsafe2 : (splitSlash topic).getD 0 "" = "$$func" ∨
          (splitSlash topic).getD 2 "" ≠ "settings" ∨ 6 ≤ (splitSlash topic).length := by
        rcases hsafe with h | h | h | h
        · exact Or.inl h
        · -- length ≤ 3 together with ¬(len = 3 ∧ ≠ heartbeat) and 3 ≤ len:
          -- the topic is the 3-segment heartbeat, whose segment 2 is "heartbeat"
          have hlen : (splitSlash topic).length = 3 := by omega
          refine Or.inr (Or.inl ?_)
          have : ¬ (splitSlash topic).getD 2 "" ≠ "heartbeat" := by
            intro hne
            exact hh ⟨hlen, hne⟩
          push_neg at this
          rw [this]
          decide
        · exact Or.inr (Or.inl h)
        · exact Or.inr (Or.inr h)
      obtain ⟨o, ho⟩ := ttdt_total (splitSlash topic) hge hsafe2
      rw [ho, exceptBindOk]
      refine ⟨?_, fun hc => absurd hc h3, fun he hne => absurd ⟨he, hne⟩ hh, fun _ hnone => ?_⟩
      · cases o with
        | none => exact ⟨none, rfl⟩
        | some dt =>
            dsimp only
            by_cases hl : (splitSlash topic).length = 3
            · rw [if_pos hl]
              exact ⟨_, rfl⟩
            · rw [if_neg hl]
              rw [listGet_ok _ 3 (by omega), exceptBindOk]
              exact ⟨_, rfl⟩
      · cases hnone
        rfl

theorem c8_from_topic_total_witness :
    ((splitSlash "N/123/grid/30/Ac/L1/Power").getD 0 "" = "$$func" ∨
      (splitSlash "N/123/grid/30/Ac/L1/Power").length ≤ 3 ∨
      (splitSlash "N/123/grid/30/Ac/L1/Power").getD 2 "" ≠ "settings" ∨
      6 ≤ (splitSlash "N/123/grid/30/Ac/L1/Power").length)
    ∧ (∃ r : Option ParsedTopicL, from_topic "N/123/grid/30/Ac/L1/Power" = .ok r) :=
  ⟨by decide, (c8_from_topic_total "N/123/grid/30/Ac/L1/Power" (by decide)).1⟩

/-- C3: the decode functions do not all fail closed.  `unwrap_enum` and
`unwrap_bitmask` guard only `json.loads` with their `try` block, so a payload
with a missing `value` field raises `KeyError` and a non-object payload
raises `TypeError`; `unwrap_bitmask` also raises `TypeError` on a positive
string value (`bin` of a non-int); and `unwrap_float` uses `.get` on the
parsed payload, so a non-object payload raises `AttributeError`, which its
`except` tuple does not catch.  By contrast `unwrap_int` returns null and
`unwrap_int_default_0` returns 0 on the same malformed inputs. -/
theorem c3_decode_exception_escape :
    unwrap_enum (some (.jobj [("other", .jint 1)])) GenericOnOff = .error .keyError
    ∧ unwrap_enum (some (.jarr [])) GenericOnOff = .error .typeError
    ∧ unwrap_bitmask (some (.jobj [])) GenericOnOff = .error .keyError
    ∧ unwrap_bitmask (some (.jobj [("value", .jstr "5")])) GenericOnOff = .error .typeError
    ∧ unwrap_float (some (.jint 5)) none "value" = .error .attributeError
    ∧ unwrap_int (some (.jobj [("other", .jint 1)])) = .ok none
    ∧ unwrap_int (some (.jarr [])) = .ok none
    ∧ unwrap_int_default_0 (some (.jobj [("other", .jint 1)])) = .ok 0
    ∧ unwrap_enum (some (.jobj [("value", .jnull)])) GenericOnOff = .ok none
    ∧ unwrap_enum none GenericOnOff = .ok none := by
  decide

theorem rheInt_intCast (z : Int) : rheInt (z : Rat) = z := by
  have hf : ⌊(z : Rat)⌋ = z := Int.floor_intCast z
  simp only [rheInt, hf, sub_self]
  norm_num

theorem pyRound_intCast (m : Int) (p : Int) (hp : 0 ≤ p) :
    pyRound (m : Rat) p = (m : Rat) := by
  obtain ⟨k, rfl⟩ : ∃ k : Nat, p = (k : Int) := ⟨p.toNat, (Int.toNat_of_nonneg hp).symm⟩
  have hpow : (10 : Rat) ^ (k : Int) = ((10 ^ k : Int) : Rat) := by
    rw [zpow_natCast]
    push_cast
    ring
  have hmul : (m : Rat) * (10 : Rat) ^ (k : Int) = ((m * 10 ^ k : Int) : Rat) := by
    rw [hpow]
    push_cast
    ring
  have hne : ((10 ^ k : Int) : Rat) ≠ 0 := by
    push_cast
    positivity
  rw [pyRound, hmul, rheInt_intCast, hpow]
  push_cast
  rw [mul_div_assoc, div_self (by positivity), mul_one]

theorem enumFromCode_self (enum : List EnumMember) (m : EnumMember)
    (hm : m ∈ enum) (hnd : (enum.map EnumMember.code).Nodup) :
    enumFromCode enum (.jint m.code) = some m := by
  induction enum with
  | nil => cases hm
  | cons a t ih =>
      rw [List.map_cons, List.nodup_cons] at hnd
      rcases List.mem_cons.mp hm with rfl | hm'
      · unfold enumFromCode
        rw [List.find?_cons]
        rw [show codeMatches (.jint m.code) m.code = true by simp [codeMatches]]
      · have hco : m.code ∈ t.map EnumMember.code := List.mem_map_of_mem _ hm'
        have hne : codeMatches (.jint m.code) a.code = false := by
          simp only [codeMatches, decide_eq_false_iff_not]
          intro hcontra
          exact hnd.1 (hcontra ▸ hco)
        unfold enumFromCode
        rw [List.find?_cons]
        rw [hne]
        exact ih hm' hnd.2

theorem from_string_self (enum : List EnumMember) (m : EnumMember)
    (hm : m ∈ enum) (hnd : (enum.map EnumMember.string).Nodup) :
    from_string enum m.string = .ok m := by
  induction enum with
  | nil => cases hm
  | cons a t ih =>
      rw [List.map_cons, List.nodup_cons] at hnd
      rcases List.mem_cons.mp hm with rfl | hm'
      · unfold from_string
        rw [List.find?_cons]
        rw [show (decide (m.string = m.string)) = true by simp]
      · have hco : m.string ∈ t.map EnumMember.string := List.mem_map_of_mem _ hm'
        have hne : (decide (a.string = m.string)) = false := by
          simp only [decide_eq_false_iff_not]
          intro hcontra
          exact hnd.1 (hcontra ▸ hco)
        unfold from_string at ih ⊢
        rw [List.find?_cons]
        rw [hne]
        exact ih hm' hnd.2

theorem bitsOf_two_pow (k : Nat) : bitsOf (2 ^ k) = [(2 : Int) ^ k] := by
  unfold bitsOf
  have hl : Nat.log2 (2 ^ k) = k := by
    rw [Nat.log2_eq_log_two]
    exact Nat.log_pow (by norm_num) k
  rw [hl]
  have hfil : (List.range (k + 1)).filter (fun i => (2 ^ k : Nat).testBit i) = [k] := by
    rw [List.range_succ, List.filter_append]
    have h1 : (List.range k).filter (fun i => (2 ^ k : Nat).testBit i) = [] := by
      rw [List.filter_eq_nil_iff]
      intro i hi
      have hik : i < k := List.mem_range.mp hi
      simp only [Nat.testBit_two_pow, decide_eq_true_eq]
      omega
    rw [h1]
    simp [List.filter, Nat.testBit_two_pow]
  rw [hfil]
  simp

theorem unwrap_wrap_enum_eq (enum : List EnumMember) (m : EnumMember)
    (hm : m ∈ enum) (hnd : (enum.map EnumMember.code).Nodup) :
    unwrap_enum (dumps (wrap_enum m)) enum = .ok (some m) := by
  simp [unwrap_enum, dumps, wrap_enum, jsonLoads, Except.map, getItem, pyCatch,
    JValue.isNull, exceptBindOk, pure, Except.pure, enumFromCode_self enum m hm hnd]

theorem unwrap_wrap_epoch_eq (q : Option Rat) :
    unwrap_epoch (dumps (wrap_epoch q)) = .ok q := by
  rcases q with _ | x <;>
    simp [unwrap_epoch, dumps, wrap_epoch, jsonLoads, getItem, pyCatch, pyFloat,
      JValue.isNull, exceptBindOk, pure, Except.pure]

theorem unwrap_wrap_bitmask_pow_eq (enum : List EnumMember) (m : EnumMember) (k : Nat)
    (hm : m ∈ enum) (hnd : (enum.map EnumMember.code).Nodup)
    (hk : m.code = (2 : Int) ^ k) :
    unwrap_bitmask (dumps (wrap_bitmask [m])) enum = .ok (some m.string) := by
  have hpos : (0 : Int) < m.code := by rw [hk]; positivity
  have htn : m.code.toNat = 2 ^ k := by
    rw [hk]
    rw [show ((2 : Int) ^ k) = ((2 ^ k : Nat) : Int) by push_cast; ring]
    exact Int.toNat_ofNat _
  simp [unwrap_bitmask, dumps, wrap_bitmask, jsonLoads, Except.map, getItem, pyCatch,
    JValue.isNull, exceptBindOk, pure, Except.pure, pyInt, hpos, htn, bitsOf_two_pow,
    ← hk, joinBitmask, joinComma, enumFromCode_self enum m hm hnd]

theorem unwrap_wrap_bitmask_zero_eq (enum : List EnumMember) (m : EnumMember)
    (hm : m ∈ enum) (hnd : (enum.map EnumMember.code).Nodup)
    (hz : m.code = 0) :
    unwrap_bitmask (dumps (wrap_bitmask [m])) enum = .ok (some m.string) := by
  simp [unwrap_bitmask, dumps, wrap_bitmask, jsonLoads, Except.map, getItem, pyCatch,
    JValue.isNull, exceptBindOk, pure, Except.pure, pyInt, hz, joinBitmask, joinComma,
    show enumFromCode enum (.jint 0) = some m by
      rw [← hz]; exact enumFromCode_self enum m hm hnd]

/-- C9: the wrap/unwrap pairs of every value type are inverses:
`wrap_int`/`unwrap_int` round-trip on int-or-null (including zero and
negatives), `wrap_int_default_0`/`unwrap_int_default_0` round-trip with the 0
default on the null sentinel, the hours and minutes second-conversions return
the original count exactly (with or without a declared non-negative
precision), the float and string wrappers round-trip likewise;
`wrap_enum`/`unwrap_enum` round-trip on every member of an enum with distinct
codes (both the member branch and the `from_string` string branch of
`wrap_enum`), `wrap_bitmask`/`unwrap_bitmask` round-trip a member whose code
is a single bit (or the zero code) back to its string form, and
`wrap_epoch`/`unwrap_epoch` round-trip on timestamp-or-null. -/
theorem c9_wrap_unwrap_roundtrip (v : Option Int) (w : Option String)
    (q : Option Rat) (pr : Int) (m : EnumMember) (enum : List EnumMember) (k : Nat)
    (hpr : 0 ≤ pr) :
    unwrap_int (dumps (wrap_int v)) = .ok v
    ∧ unwrap_int_default_0 (dumps (wrap_int_default_0 v)) = .ok (v.getD 0)
    ∧ unwrap_int_seconds_to_hours (dumps (wrap_int_hours_to_seconds v)) none =
        .ok (v.map (fun n => (n : Rat)))
    ∧ unwrap_int_seconds_to_hours (dumps (wrap_int_hours_to_seconds v)) (some pr) =
        .ok (v.map (fun n => (n : Rat)))
    ∧ unwrap_int_seconds_to_minutes (dumps (wrap_int_minutes_to_seconds v)) none =
        .ok (v.map (fun n => (n : Rat)))
    ∧ unwrap_int_seconds_to_minutes (dumps (wrap_int_minutes_to_seconds v)) (some pr) =
        .ok (v.map (fun n => (n : Rat)))
    ∧ unwrap_string (dumps (wrap_string w)) = .ok w
    ∧ unwrap_float (dumps (wrap_float q)) none "value" = .ok q
    ∧ (m ∈ enum → (enum.map EnumMember.code).Nodup →
        unwrap_enum (dumps (wrap_enum m)) enum = .ok (some m))
    ∧ (m ∈ enum → (enum.map EnumMember.string).Nodup →
        wrap_enum_str m.string enum = .ok (wrap_enum m))
    ∧ (m ∈ enum → (enum.map EnumMember.code).Nodup → m.code = (2 : Int) ^ k →
        unwrap_bitmask (dumps (wrap_bitmask [m])) enum = .ok (some m.string))
    ∧ (m ∈ enum → (enum.map EnumMember.code).Nodup → m.code = 0 →
        unwrap_bitmask (dumps (wrap_bitmask [m])) enum = .ok (some m.string))
    ∧ unwrap_epoch (dumps (wrap_epoch q)) = .ok q := by
  have hint : ∀ u : Option Int, unwrap_int (dumps (wrap_int u)) = .ok u := by
    rintro (_ | n) <;>
      simp [unwrap_int, dumps, wrap_int, jsonLoads, getItem, pyCatch, pyInt,
        JValue.isNull, exceptBindOk, pure, Except.pure]
  have hhours : ∀ n : Int,
      unwrap_int (dumps (wrap_int_hours_to_seconds (some n))) = .ok (some (n * 3600)) := by
    intro n
    simp [unwrap_int, dumps, wrap_int_hours_to_seconds, jsonLoads, getItem, pyCatch,
      pyInt, JValue.isNull, exceptBindOk, pure, Except.pure]
  have hmins : ∀ n : Int,
      unwrap_int (dumps (wrap_int_minutes_to_seconds (some n))) = .ok (some (n * 60)) := by
    intro n
    simp [unwrap_int, dumps, wrap_int_minutes_to_seconds, jsonLoads, getItem, pyCatch,
      pyInt, JValue.isNull, exceptBindOk, pure, Except.pure]
  have hhnone : unwrap_int (dumps (wrap_int_hours_to_seconds none)) = .ok none := by
    simp [unwrap_int, dumps, wrap_int_hours_to_seconds, jsonLoads, getItem, pyCatch,
      JValue.isNull, exceptBindOk, pure, Except.pure]
  have hmnone : unwrap_int (dumps (wrap_int_minutes_to_seconds none)) = .ok none := by
    simp [unwrap_int, dumps, wrap_int_minutes_to_seconds, jsonLoads, getItem, pyCatch,
      JValue.isNull, exceptBindOk, pure, Except.pure]
  have hdiv3600 : ∀ n : Int, ((n * 3600 : Int) : Rat) / 3600 = (n : Rat) := by
    intro n
    push_cast
    field_simp
  have hdiv60 : ∀ n : Int, ((n * 60 : Int) : Rat) / 60 = (n : Rat) := by
    intro n
    push_cast
    field_simp
  refine ⟨hint v, ?_, ?_, ?_, ?_, ?_, ?_, ?_, ?_, ?_, ?_, ?_, unwrap_wrap_epoch_eq q⟩
  · rcases v with _ | n <;>
      simp [unwrap_int_default_0, dumps, wrap_int_default_0, jsonLoads, getItem,
        pyCatch, pyInt, JValue.isNull, exceptBindOk, pure, Except.pure]
  · rcases v with _ | n
    · simp [unwrap_int_seconds_to_hours, hhnone, exceptBindOk, pure, Except.pure]
    · simp [unwrap_int_seconds_to_hours, hhours n, exceptBindOk, hdiv3600 n, pure,
        Except.pure]
  · rcases v with _ | n
    · simp [unwrap_int_seconds_to_hours, hhnone, exceptBindOk, pure, Except.pure]
    · simp only [unwrap_int_seconds_to_hours, hhours n, exceptBindOk, Option.map_some,
        pure, Except.pure]
      rw [hdiv3600 n, pyRound_intCast n pr hpr]
      rfl
  · rcases v with _ | n
    · simp [unwrap_int_seconds_to_minutes, hmnone, exceptBindOk, pure, Except.pure]
    · simp [unwrap_int_seconds_to_minutes, hmins n, exceptBindOk, hdiv60 n, pure,
        Except.pure]
  · rcases v with _ | n
    · simp [unwrap_int_seconds_to_minutes, hmnone, exceptBindOk, pure, Except.pure]
    · simp only [unwrap_int_seconds_to_minutes, hmins n, exceptBindOk, Option.map_some,
        pure, Except.pure]
      rw [hdiv60 n, pyRound_intCast n pr hpr]
      rfl
  · rcases w with _ | s <;>
      simp [unwrap_string, dumps, wrap_string, jsonLoads, getItem, pyCatch, pyStr,
        JValue.isNull, exceptBindOk, pure, Except.pure]
  · rcases q with _ | x <;>
      simp [unwrap_float, dumps, wrap_float, jsonLoads, dictGet, pyCatch, pyFloat,
        JValue.isNull, exceptBindOk, pure, Except.pure]
  · intro hm hnd
    exact unwrap_wrap_enum_eq enum m hm hnd
  · intro hm hnds
    unfold wrap_enum_str
    rw [from_string_self enum m hm hnds]
    rfl
  · intro hm hnd hk
    exact unwrap_wrap_bitmask_pow_eq enum m k hm hnd hk
  · intro hm hnd hz
    exact unwrap_wrap_bitmask_zero_eq enum m hm hnd hz

theorem c9_wrap_unwrap_roundtrip_witness :
    (0 : Int) ≤ 2
    ∧ ((⟨1, "On"⟩ : EnumMember) ∈ GenericOnOff)
    ∧ (GenericOnOff.map EnumMember.code).Nodup
    ∧ (GenericOnOff.map EnumMember.string).Nodup
    ∧ ((⟨1, "On"⟩ : EnumMember).code = (2 : Int) ^ 0)
    ∧ ((⟨0, "Off"⟩ : EnumMember).code = 0)
    ∧ unwrap_int (dumps (wrap_int (some (-5)))) = .ok (some (-5))
    ∧ unwrap_int_seconds_to_hours (dumps (wrap_int_hours_to_seconds (some 7))) (some 2) =
        .ok (some ((7 : Int) : Rat))
    ∧ unwrap_enum (dumps (wrap_enum ⟨1, "On"⟩)) GenericOnOff = .ok (some ⟨1, "On"⟩)
    ∧ wrap_enum_str "On" GenericOnOff = .ok (wrap_enum ⟨1, "On"⟩)
    ∧ unwrap_bitmask (dumps (wrap_bitmask [⟨1, "On"⟩])) GenericOnOff = .ok (some "On")
    ∧ unwrap_bitmask (dumps (wrap_bitmask [⟨0, "Off"⟩])) GenericOnOff = .ok (some "Off")
    ∧ unwrap_epoch (dumps (wrap_epoch (some 5))) = .ok (some 5) := by
  have hOn := c9_wrap_unwrap_roundtrip (some (-5)) none (some 5) 2 ⟨1, "On"⟩
    GenericOnOff 0 (by decide)
  have hOn7 := c9_wrap_unwrap_roundtrip (some 7) none none 2 ⟨1, "On"⟩
    GenericOnOff 0 (by decide)
  have hOff := c9_wrap_unwrap_roundtrip none none none 2 ⟨0, "Off"⟩
    GenericOnOff 0 (by decide)
  refine ⟨by decide, by decide, by decide, by decide, by decide, by decide,
    hOn.1, hOn7.2.2.2.1, ?_, ?_, ?_, ?_, hOn.2.2.2.2.2.2.2.2.2.2.2.2⟩
  · exact hOn.2.2.2.2.2.2.2.2.1 (by decide) (by decide)
  · exact hOn.2.2.2.2.2.2.2.2.2.1 (by decide) (by decide)
  · exact hOn.2.2.2.2.2.2.2.2.2.2.1 (by decide) (by decide) (by decide)
  · exact hOff.2.2.2.2.2.2.2.2.2.2.2.1 (by decide) (by decide) (by decide)

/-- C1 counterexample: the claim "a formula returning the no-value sentinel
leaves the stored value unchanged and does not notify" is false — for a
metric holding 5, `_handle_formula` forwards `None` to `_handle_message`,
which clears the value and schedules the callback. -/
theorem c1_counterexample :
    ¬ (∀ (st : MetricState) (r : MetricState × Bool),
        handleFormula none true true st none none 10 = .ok r →
        r.1.value = st.value ∧ r.2 = false) := by
  intro h
  have h2 := h ⟨.pint 5, 0, 0⟩ (⟨.pnone, 10, 10⟩, true) (by decide)
  exact absurd h2.2 (by decide)

theorem handleMessage_freqNone (st : MetricState) (v : PyVal) (t : Rat) (l c : Bool) :
    handleMessage none l c st v t =
      if pyEq v st.value = true then ({ st with last_seen := t }, false)
      else if l = true ∧ c = true then
        ({ value := v, last_update := t, last_seen := t }, true)
      else ({ value := v, last_update := st.last_update, last_seen := t }, false) := by
  rcases h : pyEq v st.value with _ | _ <;> rcases l with _ | _ <;> rcases c with _ | _ <;>
    simp [handleMessage, h]

/-- C1 (amended): when the formula function returns the no-value sentinel,
`_handle_formula` forwards `None` to `_handle_message`: the stored value is
cleared to `None`, and (with default null update frequency, a running loop
and a registered callback) the update callback is scheduled exactly when the
metric previously held a non-`None` value. -/
theorem c1_formula_none_clears (st : MetricState) (prec : Option Int) (now : Rat) :
    ∀ r, handleFormula none true true st prec none now = .ok r →
      r.1.value = .pnone ∧ (r.2 = true ↔ st.value ≠ .pnone) := by
  intro r hr
  have hr2 : handleMessage none true true st .pnone now = r := by
    have hdef : handleFormula none true true st prec none now =
        .ok (handleMessage none true true st .pnone now) := rfl
    rw [hdef] at hr
    exact Except.ok.inj hr
  subst hr2
  rw [handleMessage_freqNone]
  by_cases hv : st.value = .pnone
  · rw [if_pos ((pyEq_pnone_iff _).mpr hv)]
    simp [hv]
  · have hEq : ¬ pyEq .pnone st.value = true := fun hb => hv ((pyEq_pnone_iff _).mp hb)
    rw [if_neg hEq, if_pos ⟨rfl, rfl⟩]
    simp [hv]

theorem c1_formula_none_clears_witness :
    handleFormula none true true ⟨.pint 5, 0, 0⟩ none none 10 = .ok (⟨.pnone, 10, 10⟩, true)
    ∧ ((⟨.pnone, 10, 10⟩, true) : MetricState × Bool).1.value = .pnone
    ∧ (((⟨.pnone, 10, 10⟩, true) : MetricState × Bool).2 = true ↔
        (⟨.pint 5, 0, 0⟩ : MetricState).value ≠ .pnone) :=
  ⟨by decide,
   (c1_formula_none_clears ⟨.pint 5, 0, 0⟩ none 10 (⟨.pnone, 10, 10⟩, true) (by decide)).1,
   (c1_formula_none_clears ⟨.pint 5, 0, 0⟩ none 10 (⟨.pnone, 10, 10⟩, true) (by decide)).2⟩

theorem pyEq_some_some {a b : PyVal} {qa qb : Rat}
    (ha : a.toRat? = some qa) (hb : b.toRat? = some qb) :
    pyEq a b = decide (qa = qb) := by
  unfold pyEq
  rw [ha, hb]

theorem pyEq_num_mixed {a b : PyVal} {qa : Rat}
    (ha : a.toRat? = some qa) (hb : b.toRat? = none) :
    pyEq a b = false := by
  unfold pyEq
  rw [ha, hb]
  cases a <;> cases b <;> simp_all [PyVal.toRat?]

theorem pyEq_mixed_num {a b : PyVal} {qb : Rat}
    (ha : a.toRat? = none) (hb : b.toRat? = some qb) :
    pyEq a b = false := by
  unfold pyEq
  rw [ha, hb]
  cases a <;> cases b <;> simp_all [PyVal.toRat?]

/-- C5: with default (null) update frequency, a running loop and a registered
callback, delivering the same numeric value twice in a row notifies at most
once (the second, equal-valued delivery does not notify) while delivering a
different value does notify; and with update frequency 0 every delivery
notifies regardless of value equality. -/
theorem c5_update_frequency (st : MetricState) (v w : PyVal) (t1 t2 t3 : Rat)
    (hv : v.isNumeric = true) (hvw : pyEq w v = false) :
    ((handleMessage none true true ((handleMessage none true true st v t1).1) v t2).2 = false)
    ∧ ((handleMessage none true true ((handleMessage none true true st v t1).1) w t3).2 = true)
    ∧ (∀ (st' : MetricState) (u : PyVal) (nowz : Rat),
        (handleMessage (some 0) true true st' u nowz).2 = true) := by
  obtain ⟨qv, hqv⟩ : ∃ q, v.toRat? = some q := by
    unfold PyVal.isNumeric at hv
    exact Option.isSome_iff_exists.mp hv
  have hfst : (handleMessage none true true st v t1).1.value =
      if pyEq v st.value = true then st.value else v := by
    rw [handleMessage_freqNone]
    rcases h : pyEq v st.value with _ | _ <;> simp [h]
  have hvalue1 : pyEq v ((handleMessage none true true st v t1).1.value) = true := by
    rw [hfst]
    rcases h : pyEq v st.value with _ | _
    · simp [pyEq_some_some hqv hqv]
    · simp [h]
  have hval2 : pyEq w ((handleMessage none true true st v t1).1.value) = false := by
    rw [hfst]
    rcases h : pyEq v st.value with _ | _
    · simpa using hvw
    · -- the first delivery kept the old value, which is numerically equal to v
      rw [if_pos rfl]
      rcases hx : st.value.toRat? with _ | qx
      · rw [pyEq_num_mixed hqv hx] at h
        cases h
      · have hfx : qv = qx := by
          rw [pyEq_some_some hqv hx] at h
          simpa using h
        rcases hw : w.toRat? with _ | qw
        · exact pyEq_mixed_num hw hx
        · rw [pyEq_some_some hw hx]
          rw [pyEq_some_some hw hqv] at hvw
          simp only [decide_eq_false_iff_not] at hvw ⊢
          rw [← hfx]
          exact hvw
  refine ⟨?_, ?_, ?_⟩
  · rw [handleMessage_freqNone, if_pos hvalue1]
  · rw [handleMessage_freqNone, if_neg (by simp [hval2]), if_pos ⟨rfl, rfl⟩]
  · intro st' u nowz
    simp [handleMessage]

theorem c5_update_frequency_witness :
    (PyVal.pfloat 50).isNumeric = true
    ∧ pyEq (.pfloat 51) (.pfloat 50) = false
    ∧ ((handleMessage none true true
          ((handleMessage none true true {} (.pfloat 50) 1).1) (.pfloat 50) 2).2 = false)
    ∧ ((handleMessage none true true
          ((handleMessage none true true {} (.pfloat 50) 1).1) (.pfloat 51) 3).2 = true)
    ∧ ((handleMessage (some 0) true true {} (.pfloat 50) 1).2 = true) := by
  have h := c5_update_frequency {} (.pfloat 50) (.pfloat 51) 1 2 3 (by decide) (by decide)
  exact ⟨by decide, by decide, h.1, h.2.1, h.2.2 {} (.pfloat 50) 1⟩

theorem set_append_last {α : Type} (l : List α) (d d' : α) :
    (l ++ [d]).set l.length d' = l ++ [d'] := by
  induction l with
  | nil => rfl
  | cons a t ih => simp [List.set, ih]

theorem heapGet_append_lt (heap l2 : List TopicDescriptor) (r : Nat)
    (h : r < heap.length) :
    heapGet (heap ++ l2) r = heapGet heap r := by
  simp [heapGet, List.getD_eq_getElem?_getD, List.getElem?_append_left h]

theorem heapGet_append_self (heap : List TopicDescriptor) (d : TopicDescriptor) :
    heapGet (heap ++ [d]) heap.length = d := by
  simp [heapGet, List.getD_eq_getElem?_getD,
    List.getElem?_append_right (le_refl heap.length)]

theorem create_metric_adjustable_false (heap : List TopicDescriptor)
    (freq : Option Rat) (loop_running : Bool) (mp : MetricPlaceholderL)
    (fps : List FallbackPlaceholderL) (fp : FallbackPlaceholderL) (now : Rat)
    (hadj : truthyOptStr (heapGet heap mp.descRef).is_adjustable_suffix = true)
    (hstatic : (heapGet heap mp.descRef).min_max_range = .static)
    (hfind : fps.find? (fun fp => sameAdjustableTopics fp.full_topic mp.full_topic) = some fp)
    (hfv : fp.value = false) :
    create_metric_from_placeholder heap freq loop_running mp fps now =
      .ok (heap ++ [{ heapGet heap mp.descRef with message_type := .sensor }],
        { descRef := heap.length, short_id := mp.short_id,
          hub_unique_id := mp.hub_unique_id,
          st := (handleMessage freq loop_running false {} mp.value now).1 }) := by
  unfold create_metric_from_placeholder
  dsimp only
  rw [hadj]
  rw [if_pos rfl]
  rw [hfind]
  dsimp only
  rw [hfv, if_pos rfl]
  rw [heapGet_append_self, set_append_last, heapGet_append_self]
  dsimp only
  rw [hstatic, if_neg (by decide : ¬ (RangeType.static = RangeType.dynamic))]
  rfl

theorem create_metric_adjustable_true (heap : List TopicDescriptor)
    (freq : Option Rat) (loop_running : Bool) (mp : MetricPlaceholderL)
    (fps : List FallbackPlaceholderL) (fp : FallbackPlaceholderL) (now : Rat)
    (hadj : truthyOptStr (heapGet heap mp.descRef).is_adjustable_suffix = true)
    (hstatic : (heapGet heap mp.descRef).min_max_range = .static)
    (hfind : fps.find? (fun fp => sameAdjustableTopics fp.full_topic mp.full_topic) = some fp)
    (hfv : fp.value = true) :
    create_metric_from_placeholder heap freq loop_running mp fps now =
      .ok (heap,
        { descRef := mp.descRef, short_id := mp.short_id,
          hub_unique_id := mp.hub_unique_id,
          st := (handleMessage freq loop_running false {} mp.value now).1 }) := by
  unfold create_metric_from_placeholder
  dsimp only
  rw [hadj]
  rw [if_pos rfl]
  rw [hfind]
  dsimp only
  rw [hfv, if_neg (by decide : ¬ (true = false))]
  dsimp only
  rw [hstatic, if_neg (by decide : ¬ (RangeType.static = RangeType.dynamic))]
  rfl

/-- C2 counterexample: the claim "with the adjustable flag true the committed
metric is writable" is false for every adjustable-suffix descriptor whose
kind is not a writable kind.  `Hub.__init__` produces exactly such
descriptors in `READ_ONLY` operation mode (a deep copy downgraded to sensor
kind that keeps `is_adjustable_suffix`); committing its placeholder with a
true flag instantiates a read-only `Metric`, since the writable/read-only
choice reads only `message_type`. -/
theorem c2_counterexample :
    ¬ (∀ (heap : List TopicDescriptor) (mp : MetricPlaceholderL)
        (fps : List FallbackPlaceholderL) (r : List TopicDescriptor × MetricObj),
        truthyOptStr (heapGet heap mp.descRef).is_adjustable_suffix = true →
        (∃ fp ∈ fps, sameAdjustableTopics fp.full_topic mp.full_topic = true ∧
          fp.value = true) →
        create_metric_from_placeholder heap none true mp fps 3 = .ok r →
        writableKind (heapGet r.1 r.2.descRef).message_type = true) := by
  intro h
  have hw := h [c2ReadOnlyDescriptor] c2Mp [c2TrueFp]
    ([c2ReadOnlyDescriptor],
      { descRef := 0, short_id := "evcharger_current_limit",
        hub_unique_id := c2MetricKey,
        st := { value := .pfloat 100, last_update := 0, last_seen := 3 } })
    (by decide)
    ⟨c2TrueFp, by decide, by decide, rfl⟩
    (by decide)
  exact absurd hw (by decide)

/-- C2 (amended): for every buffered MetricPlaceholder whose descriptor
carries an adjustable-suffix (and a static min/max range), committing it
when a FallbackPlaceholder for the same adjustable topic pair exists with
value false produces a read-only sensor-kind metric on a deep-copied
descriptor appended to the table — the shared entries, in particular the
placeholder's own, are not mutated; with the flag true the committed metric
keeps the shared descriptor and its kind, so it is writable exactly when
that kind is a writable kind (a number-kind pair like the spec's
CurrentLimit does become writable, a read-only-mode sensor copy does not);
and in the concrete CurrentLimit scenario the kind/writable outcome and the
untouched table entry are identical for both arrival orders of the data and
flag messages, for all four flag encodings. -/
theorem c2_adjustable_commit
    (heap : List TopicDescriptor) (freq : Option Rat) (loop_running : Bool)
    (mp : MetricPlaceholderL) (fps : List FallbackPlaceholderL)
    (fp : FallbackPlaceholderL) (now : Rat) (v : JValue) (order : Bool)
    (hadj : truthyOptStr (heapGet heap mp.descRef).is_adjustable_suffix = true)
    (hstatic : (heapGet heap mp.descRef).min_max_range = .static)
    (hfind : fps.find? (fun fp => sameAdjustableTopics fp.full_topic mp.full_topic) = some fp)
    (hv : v = .jint 0 ∨ v = .jint 1 ∨ v = .jbool false ∨ v = .jbool true) :
    (fp.value = false →
      ∃ metric : MetricObj,
        create_metric_from_placeholder heap freq loop_running mp fps now =
          .ok (heap ++ [{ heapGet heap mp.descRef with message_type := .sensor }], metric)
        ∧ metric.descRef = heap.length
        ∧ (heapGet (heap ++ [{ heapGet heap mp.descRef with message_type := .sensor }])
            metric.descRef).message_type = .sensor
        ∧ writableKind (heapGet (heap ++ [{ heapGet heap mp.descRef with
            message_type := .sensor }]) metric.descRef).message_type = false
        ∧ ∀ i, i < heap.length →
            heapGet (heap ++ [{ heapGet heap mp.descRef with message_type := .sensor }]) i =
              heapGet heap i)
    ∧ (fp.value = true →
      ∃ metric : MetricObj,
        create_metric_from_placeholder heap freq loop_running mp fps now = .ok (heap, metric)
        ∧ metric.descRef = mp.descRef
        ∧ writableKind (heapGet heap metric.descRef).message_type =
            writableKind (heapGet heap mp.descRef).message_type)
    ∧ c2CommittedKind v order = some (if pyBool v then .number else .sensor)
    ∧ c2Writable v order = some (pyBool v)
    ∧ c2CommittedKind v true = c2CommittedKind v false
    ∧ c2TableEntry v order = some c2DataDescriptor := by
  refine ⟨?_, ?_, ?_⟩
  · intro hfv
    refine ⟨_, create_metric_adjustable_false heap freq loop_running mp fps fp now
      hadj hstatic hfind hfv, rfl, ?_, ?_, ?_⟩
    · rw [heapGet_append_self]
    · rw [heapGet_append_self]
      rfl
    · intro i hi
      exact heapGet_append_lt heap _ i hi
  · intro hfv
    exact ⟨_, create_metric_adjustable_true heap freq loop_running mp fps fp now
      hadj hstatic hfind hfv, rfl, rfl⟩
  · rcases hv with rfl | rfl | rfl | rfl <;> cases order <;>
      exact ⟨by decide, by decide, by decide, by decide⟩

theorem c2_adjustable_commit_witness :
    (truthyOptStr (heapGet [c2DataDescriptor] c2Mp.descRef).is_adjustable_suffix = true)
    ∧ ((heapGet [c2DataDescriptor] c2Mp.descRef).min_max_range = .static)
    ∧ ([c2FalseFp].find?
        (fun fp => sameAdjustableTopics fp.full_topic c2Mp.full_topic) = some c2FalseFp)
    ∧ (∃ metric : MetricObj,
        create_metric_from_placeholder [c2DataDescriptor] none true c2Mp [c2FalseFp] 3 =
          .ok ([c2DataDescriptor] ++
            [{ heapGet [c2DataDescriptor] c2Mp.descRef with message_type := .sensor }], metric)
        ∧ metric.descRef = [c2DataDescriptor].length
        ∧ (heapGet ([c2DataDescriptor] ++
            [{ heapGet [c2DataDescriptor] c2Mp.descRef with message_type := .sensor }])
            metric.descRef).message_type = .sensor
        ∧ writableKind (heapGet ([c2DataDescriptor] ++
            [{ heapGet [c2DataDescriptor] c2Mp.descRef with message_type := .sensor }])
            metric.descRef).message_type = false
        ∧ ∀ i, i < [c2DataDescriptor].length →
            heapGet ([c2DataDescriptor] ++
              [{ heapGet [c2DataDescriptor] c2Mp.descRef with message_type := .sensor }]) i =
              heapGet [c2DataDescriptor] i)
    ∧ c2CommittedKind (.jint 1) true = some (if pyBool (.jint 1) then .number else .sensor)
    ∧ c2Writable (.jint 1) true = some (pyBool (.jint 1)) := by
  have h := c2_adjustable_commit [c2DataDescriptor] none true c2Mp [c2FalseFp] c2FalseFp 3
    (.jint 1) true (by decide) (by decide) (by decide) (Or.inr (Or.inl rfl))
  exact ⟨by decide, by decide, by decide, h.1 rfl, h.2.2.1, h.2.2.2.1⟩

/-- C7 counterexample: the claim "any echo token that does not start with the
client id makes the handler return without committing" is false for the
empty echo token `""`: it does not start with the client id, yet the handler
treats it as missing (falsy) and runs the commit pass, draining the buffered
placeholder. -/
theorem c7_counterexample :
    ¬ (∀ (payload : Payload) (e : String),
        get_keepalive_echo payload = .ok (.jstr e) →
        strStartsWith e c7State.client_id = false →
        handle_full_publish_message noFormulas c7State payload 3 = .ok c7State) := by
  intro h
  have hres := h (some (.jobj [("full-publish-completed-echo", .jstr "")])) ""
    rfl (by decide)
  have h0 : c7RemainingPlaceholders
      (some (.jobj [("full-publish-completed-echo", .jstr "")])) = some 0 := by decide
  unfold c7RemainingPlaceholders at h0
  rw [hres] at h0
  exact absurd h0 (by decide)

/-- C7 (amended): on the full-publish-completed message, a non-empty echo
token that does not start with this client's id makes the handler return
with the state unchanged (no placeholder committed); an echo token starting
with the client id, an absent echo token (legacy firmware), or an empty echo
token (falsy, treated as absent) all make the placeholder-commit and
formula-activation pass run. -/
theorem c7_echo_gate (ftab : String → FormulaFn) (st : HubState)
    (payload : Payload) (now : Rat) (e : String) :
    (get_keepalive_echo payload = .ok (.jstr e) → e ≠ "" →
      strStartsWith e st.client_id = false →
      handle_full_publish_message ftab st payload now = .ok st)
    ∧ (get_keepalive_echo payload = .ok (.jstr e) →
      strStartsWith e st.client_id = true →
      handle_full_publish_message ftab st payload now = commitPass ftab st now)
    ∧ (get_keepalive_echo payload = .ok .jnull →
      handle_full_publish_message ftab st payload now = commitPass ftab st now)
    ∧ (get_keepalive_echo payload = .ok (.jstr "") →
      handle_full_publish_message ftab st payload now = commitPass ftab st now) := by
  refine ⟨fun hecho hne hstart => ?_, fun hecho hstart => ?_, fun hecho => ?_,
    fun hecho => ?_⟩
  · unfold handle_full_publish_message
    rw [hecho, exceptBindOk, if_pos (by simpa [pyBool] using hne)]
    simp [hstart, pure, Except.pure]
  · unfold handle_full_publish_message
    rw [hecho, exceptBindOk]
    by_cases hne : e = ""
    · subst hne
      rw [if_neg (by simp [pyBool])]
    · rw [if_pos (by simpa [pyBool] using hne)]
      simp [hstart]
  · unfold handle_full_publish_message
    rw [hecho, exceptBindOk, if_neg (by simp [pyBool])]
  · unfold handle_full_publish_message
    rw [hecho, exceptBindOk, if_neg (by simp [pyBool])]

theorem c7_echo_gate_witness :
    (get_keepalive_echo (some (.jobj [("full-publish-completed-echo", .jstr "other-client-7")]))
        = .ok (.jstr "other-client-7"))
    ∧ ("other-client-7" : String) ≠ ""
    ∧ strStartsWith "other-client-7" c7State.client_id = false
    ∧ handle_full_publish_message noFormulas c7State
        (some (.jobj [("full-publish-completed-echo", .jstr "other-client-7")])) 3 =
        .ok c7State :=
  ⟨rfl, by decide, by decide,
   (c7_echo_gate noFormulas c7State
      (some (.jobj [("full-publish-completed-echo", .jstr "other-client-7")])) 3
      "other-client-7").1 rfl (by decide) (by decide)⟩

theorem listSet_ok {α : Type} (l : List α) (i : Nat) (v : α) (h : i < l.length) :
    listSet l i v = .ok (l.set i v) := by
  simp [listSet, h]

/-- C4: descriptor resolution performs exactly the four lookups in the fixed
order primary-with-device-type, primary-without, fallback-with,
fallback-without, stopping at the first hit (stated as equality with the
spec-worded first-hit chain `fourLookupSpec`); when the hit is a list with
more than one candidate, the resolved descriptor is the literal match
against the full topic with installation-id and device-id segments
re-templated (and the first such match in list order); and when no lookup
hits, disambiguation fails, or the topic does not parse, the message is
dropped with the hub state unchanged — no device, placeholder or metric is
created. -/
theorem c4_descriptor_resolution :
    (∀ (tm fm : List (String × List Nat)) (pt : ParsedTopicL),
      descListLookup tm fm pt = fourLookupSpec tm fm pt)
    ∧ (∀ (heap : List TopicDescriptor) (tm fm : List (String × List Nat))
        (pt : ParsedTopicL) (l : List Nat) (fb : Bool) (r : Option Nat),
        descListLookup tm fm pt = some (l, fb) → l.length ≠ 1 →
        match_from_list heap pt l = .ok r →
        resolveDescriptor heap tm fm pt = .ok (r.map (fun d => (d, fb))))
    ∧ (∀ (heap : List TopicDescriptor) (pt : ParsedTopicL) (l : List Nat),
        4 ≤ (splitSlash pt.full_topic).length →
        match_from_list heap pt l = .ok (l.find? (fun r =>
          (heapGet heap r).topic = joinSlash (((splitSlash pt.full_topic).set 1
            "\x7binstallation_id\x7d").set 3 "\x7bdevice_id\x7d"))))
    ∧ (∀ (st : HubState) (topic : String) (payload : Payload) (now : Rat)
        (pt : ParsedTopicL),
        from_topic topic = .ok (some pt) →
        resolveDescriptor st.heap st.topic_map st.fallback_map pt = .ok none →
        handle_normal_message st topic payload now = .ok st)
    ∧ (∀ (st : HubState) (topic : String) (payload : Payload) (now : Rat),
        from_topic topic = .ok none →
        handle_normal_message st topic payload now = .ok st) := by
  refine ⟨?_, ?_, ?_, ?_, ?_⟩
  · intro tm fm pt
    cases h1 : mapGet tm pt.wildcards_with_device_type <;>
      cases h2 : mapGet tm pt.wildcards_without_device_type <;>
      cases h3 : mapGet fm pt.wildcards_with_device_type <;>
      cases h4 : mapGet fm pt.wildcards_without_device_type <;>
      simp [descListLookup, fourLookupSpec, h1, h2, h3, h4, Option.or]
  · intro heap tm fm pt l fb r hlook hlen hmfl
    unfold resolveDescriptor
    rw [hlook]
    dsimp only
    rw [if_neg hlen]
    rw [hmfl, exceptBindOk]
    cases r <;> rfl
  · intro heap pt l hlen
    unfold match_from_list
    dsimp only
    have hl1 : 1 < (splitSlash pt.full_topic).length := by omega
    have hl3 : 3 < ((splitSlash pt.full_topic).set 1 "\x7binstallation_id\x7d").length := by
      rw [List.length_set]
      omega
    rw [listSet_ok _ 1 _ hl1, exceptBindOk, listSet_ok _ 3 _ hl3, exceptBindOk]
    rfl
  · intro st topic payload now pt hft hres
    unfold handle_normal_message
    rw [hft, exceptBindOk]
    dsimp only
    rw [hres, exceptBindOk]
    rfl
  · intro st topic payload now hft
    unfold handle_normal_message
    rw [hft, exceptBindOk]
    rfl

theorem c4_descriptor_resolution_witness :
    (descListLookup [("k", [5])] [] ⟨"i", "d", DeviceType.GRID, "k", "k2", "t"⟩ =
      fourLookupSpec [("k", [5])] [] ⟨"i", "d", DeviceType.GRID, "k", "k2", "t"⟩)
    ∧ (let heap := [{ defaultDescriptor with
          topic := "N/\x7binstallation_id\x7d/solarcharger/\x7bdevice_id\x7d/History/Daily/0/MaxPower" },
        { defaultDescriptor with
          topic := "N/\x7binstallation_id\x7d/solarcharger/\x7bdevice_id\x7d/History/Daily/1/MaxPower" }]
       let pt : ParsedTopicL := ⟨"123", "30", DeviceType.SOLAR_CHARGER, "w1", "w2",
         "N/123/solarcharger/30/History/Daily/0/MaxPower"⟩
       resolveDescriptor heap [("w1", [0, 1])] [] pt = .ok (some (0, false)))
    ∧ (handle_normal_message c2InitialState "N/123/foobar/30/Ac/In/CurrentLimit" none 1 =
        .ok c2InitialState) := by
  refine ⟨c4_descriptor_resolution.1 [("k", [5])] [] _, ?_, ?_⟩
  · have h := c4_descriptor_resolution.2.1
      [{ defaultDescriptor with
          topic := "N/\x7binstallation_id\x7d/solarcharger/\x7bdevice_id\x7d/History/Daily/0/MaxPower" },
        { defaultDescriptor with
          topic := "N/\x7binstallation_id\x7d/solarcharger/\x7bdevice_id\x7d/History/Daily/1/MaxPower" }]
      [("w1", [0, 1])] []
      ⟨"123", "30", DeviceType.SOLAR_CHARGER, "w1", "w2",
        "N/123/solarcharger/30/History/Daily/0/MaxPower"⟩
      [0, 1] false (some 0) (by decide) (by decide) (by decide)
    exact h
  · exact c4_descriptor_resolution.2.2.2.2 c2InitialState
      "N/123/foobar/30/Ac/In/CurrentLimit" none 1 (by decide)

theorem takeWhile_all_append (p : Char → Bool) (l : List Char) (c : Char) (r : List Char)
    (hl : l.all p = true) (hc : p c = false) :
    (l ++ c :: r).takeWhile p = l := by
  induction l with
  | nil => simp [List.takeWhile_cons, hc]
  | cons a t ih =>
      simp only [List.all_cons, Bool.and_eq_true] at hl
      simp [List.takeWhile_cons, hl.1, ih hl.2]

theorem dropWhile_all_append (p : Char → Bool) (l : List Char) (c : Char) (r : List Char)
    (hl : l.all p = true) (hc : p c = false) :
    (l ++ c :: r).dropWhile p = c :: r := by
  induction l with
  | nil => simp [List.dropWhile_cons, hc]
  | cons a t ih =>
      simp only [List.all_cons, Bool.and_eq_true] at hl
      simp [List.dropWhile_cons, hl.1, ih hl.2]

theorem rangeMatchAt_placeholder (nm da db suf : List Char)
    (hnm0 : nm ≠ []) (hnm : nm.all isNameChar = true)
    (hda0 : da ≠ []) (hda : da.all Char.isDigit = true)
    (hdb0 : db ≠ []) (hdb : db.all Char.isDigit = true) :
    ∃ hlt, rangeMatchAt (placeholderChars nm da db ++ suf) =
      some ((String.mk nm, digitsToNat da, digitsToNat db), ⟨suf, hlt⟩) := by
  have h0 : placeholderChars nm da db ++ suf =
      '\x7b' :: (nm ++ '(' :: (da ++ '-' :: (db ++ ')' :: '\x7d' :: suf))) := by
    simp [placeholderChars]
  rw [h0]
  unfold rangeMatchAt
  dsimp only
  rw [if_pos rfl]
  simp only [
    takeWhile_all_append isNameChar nm '(' (da ++ '-' :: (db ++ ')' :: '\x7d' :: suf))
      hnm (by decide),
    dropWhile_all_append isNameChar nm '(' (da ++ '-' :: (db ++ ')' :: '\x7d' :: suf))
      hnm (by decide),
    List.head?_cons, List.tail_cons,
    takeWhile_all_append Char.isDigit da '-' (db ++ ')' :: '\x7d' :: suf) hda (by decide),
    dropWhile_all_append Char.isDigit da '-' (db ++ ')' :: '\x7d' :: suf) hda (by decide),
    takeWhile_all_append Char.isDigit db ')' ('\x7d' :: suf) hdb (by decide),
    dropWhile_all_append Char.isDigit db ')' ('\x7d' :: suf) hdb (by decide)]
  rw [if_neg (by simp only [List.isEmpty_iff]; exact hnm0), if_pos trivial,
      if_neg (by simp only [List.isEmpty_iff]; exact hda0), if_pos trivial,
      if_neg (by simp only [List.isEmpty_iff]; exact hdb0), if_pos ⟨trivial, trivial⟩]
  exact ⟨by simp [List.length_append]; omega, rfl⟩


theorem rangeMatchAt_cons_ne (c : Char) (cs : List Char) (h : ¬ c = '\x7b') :
    rangeMatchAt (c :: cs) = none := by
  unfold rangeMatchAt
  dsimp only
  rw [if_neg h]

theorem rangeMatches_nil : rangeMatches [] = [] := by
  rw [rangeMatches]

theorem rangeMatches_cons_none (c : Char) (cs : List Char)
    (h : rangeMatchAt (c :: cs) = none) :
    rangeMatches (c :: cs) = rangeMatches cs := by
  rw [rangeMatches, h]

theorem rangeMatches_cons_some (c : Char) (cs : List Char) (m : String × Nat × Nat)
    (rest : List Char) (hr : rest.length < (c :: cs).length)
    (h : rangeMatchAt (c :: cs) = some (m, ⟨rest, hr⟩)) :
    rangeMatches (c :: cs) = m :: rangeMatches rest := by
  rw [rangeMatches, h]

theorem rangeSub_nil (repl : List Char) : rangeSub repl [] = [] := by
  rw [rangeSub]

theorem rangeSub_cons_none (repl : List Char) (c : Char) (cs : List Char)
    (h : rangeMatchAt (c :: cs) = none) :
    rangeSub repl (c :: cs) = c :: rangeSub repl cs := by
  rw [rangeSub, h]

theorem rangeSub_cons_some (repl : List Char) (c : Char) (cs : List Char)
    (m : String × Nat × Nat) (rest : List Char) (hr : rest.length < (c :: cs).length)
    (h : rangeMatchAt (c :: cs) = some (m, ⟨rest, hr⟩)) :
    rangeSub repl (c :: cs) = repl ++ rangeSub repl rest := by
  rw [rangeSub, h]

theorem mem_of_head? {α : Type} (l : List α) (a : α) (h : l.head? = some a) : a ∈ l := by
  cases l with
  | nil => cases h
  | cons x t =>
      rw [List.head?_cons] at h
      injection h with hx
      exact hx ▸ List.mem_cons_self x t

theorem head?_dropWhile_name_append (l r : List Char)
    (hl : l.all (fun c => c ≠ '(') = true) (hr : r.head? = some '\x7b') :
    ¬ ((l ++ r).dropWhile isNameChar).head? = some '(' := by
  induction l with
  | nil =>
      cases r with
      | nil => cases hr
      | cons c r' =>
          rw [List.head?_cons] at hr
          injection hr with hc
          subst hc
          rw [List.nil_append, List.dropWhile_cons]
          rw [if_neg (by decide : ¬ (isNameChar '\x7b' = true))]
          rw [List.head?_cons]
          decide
  | cons d l' ih =>
      simp only [List.all_cons, Bool.and_eq_true] at hl
      rw [List.cons_append, List.dropWhile_cons]
      by_cases hd : isNameChar d = true
      · rw [if_pos hd]
        exact ih hl.2
      · rw [if_neg hd, List.head?_cons]
        have hdne : ¬ (d = '(') := by simpa using hl.1
        intro hcon
        injection hcon with he
        exact hdne he

theorem rangeMatchAt_none_before_lbrace (c : Char) (l r : List Char)
    (hl : l.all (fun c => c ≠ '(') = true) (hr : r.head? = some '\x7b') :
    rangeMatchAt (c :: (l ++ r)) = none := by
  by_cases hc : c = '\x7b'
  · subst hc
    unfold rangeMatchAt
    dsimp only
    rw [if_pos rfl]
    by_cases hne : (List.takeWhile isNameChar (l ++ r)).isEmpty = true
    · rw [if_pos hne]
    · rw [if_neg hne, if_neg (head?_dropWhile_name_append l r hl hr)]
  · exact rangeMatchAt_cons_ne c _ hc

theorem rangeMatches_append_no_paren (pre rest : List Char)
    (hpre : pre.all (fun c => c ≠ '(') = true) (hrest : rest.head? = some '\x7b') :
    rangeMatches (pre ++ rest) = rangeMatches rest := by
  induction pre with
  | nil => rfl
  | cons c pre' ih =>
      simp only [List.all_cons, Bool.and_eq_true] at hpre
      rw [List.cons_append,
        rangeMatches_cons_none _ _ (rangeMatchAt_none_before_lbrace c pre' rest hpre.2 hrest),
        ih hpre.2]

theorem rangeSub_append_no_paren (repl pre rest : List Char)
    (hpre : pre.all (fun c => c ≠ '(') = true) (hrest : rest.head? = some '\x7b') :
    rangeSub repl (pre ++ rest) = pre ++ rangeSub repl rest := by
  induction pre with
  | nil => rfl
  | cons c pre' ih =>
      simp only [List.all_cons, Bool.and_eq_true] at hpre
      rw [List.cons_append,
        rangeSub_cons_none _ _ _ (rangeMatchAt_none_before_lbrace c pre' rest hpre.2 hrest),
        ih hpre.2, List.cons_append]

theorem head?_dropWhile_no_paren (cs : List Char)
    (h : cs.all (fun c => c ≠ '(') = true) :
    ¬ (cs.dropWhile isNameChar).head? = some '(' := by
  intro hcon
  have hm : '(' ∈ cs.dropWhile isNameChar := mem_of_head? _ _ hcon
  have hsub : '(' ∈ cs := (cs.dropWhile_sublist isNameChar).subset hm
  rw [List.all_eq_true] at h
  have h2 := h '(' hsub
  simp at h2

theorem rangeMatchAt_none_no_paren (c : Char) (cs : List Char)
    (h : (c :: cs).all (fun c => c ≠ '(') = true) :
    rangeMatchAt (c :: cs) = none := by
  simp only [List.all_cons, Bool.and_eq_true] at h
  by_cases hc : c = '\x7b'
  · subst hc
    unfold rangeMatchAt
    dsimp only
    rw [if_pos rfl]
    by_cases hne : (List.takeWhile isNameChar cs).isEmpty = true
    · rw [if_pos hne]
    · rw [if_neg hne, if_neg (head?_dropWhile_no_paren cs h.2)]
  · exact rangeMatchAt_cons_ne c _ hc

theorem rangeMatches_no_paren (cs : List Char)
    (h : cs.all (fun c => c ≠ '(') = true) :
    rangeMatches cs = [] := by
  induction cs with
  | nil => exact rangeMatches_nil
  | cons c t ih =>
      have h' := h
      simp only [List.all_cons, Bool.and_eq_true] at h'
      rw [rangeMatches_cons_none _ _ (rangeMatchAt_none_no_paren c t h), ih h'.2]

theorem rangeSub_no_paren (repl cs : List Char)
    (h : cs.all (fun c => c ≠ '(') = true) :
    rangeSub repl cs = cs := by
  induction cs with
  | nil => exact rangeSub_nil repl
  | cons c t ih =>
      have h' := h
      simp only [List.all_cons, Bool.and_eq_true] at h'
      rw [rangeSub_cons_none _ _ _ (rangeMatchAt_none_no_paren c t h), ih h'.2]

theorem rangeMatches_eq_of_matchAt (cs : List Char) (m : String × Nat × Nat)
    (rest : List Char) (hr : rest.length < cs.length)
    (h : rangeMatchAt cs = some (m, ⟨rest, hr⟩)) :
    rangeMatches cs = m :: rangeMatches rest := by
  cases cs with
  | nil => exact absurd hr (by simp)
  | cons c cs' => exact rangeMatches_cons_some _ _ _ _ _ h

theorem rangeSub_eq_of_matchAt (repl : List Char) (cs : List Char)
    (m : String × Nat × Nat) (rest : List Char) (hr : rest.length < cs.length)
    (h : rangeMatchAt cs = some (m, ⟨rest, hr⟩)) :
    rangeSub repl cs = repl ++ rangeSub repl rest := by
  cases cs with
  | nil => exact absurd hr (by simp)
  | cons c cs' => exact rangeSub_cons_some _ _ _ _ _ _ h

theorem rangeMatches_placeholder (nm da db suf : List Char)
    (hnm0 : nm ≠ []) (hnm : nm.all isNameChar = true)
    (hda0 : da ≠ []) (hda : da.all Char.isDigit = true)
    (hdb0 : db ≠ []) (hdb : db.all Char.isDigit = true) :
    rangeMatches (placeholderChars nm da db ++ suf) =
      (String.mk nm, digitsToNat da, digitsToNat db) :: rangeMatches suf := by
  obtain ⟨hlt, hat⟩ := rangeMatchAt_placeholder nm da db suf hnm0 hnm hda0 hda hdb0 hdb
  exact rangeMatches_eq_of_matchAt _ _ _ _ hat

theorem rangeSub_placeholder (repl nm da db suf : List Char)
    (hnm0 : nm ≠ []) (hnm : nm.all isNameChar = true)
    (hda0 : da ≠ []) (hda : da.all Char.isDigit = true)
    (hdb0 : db ≠ []) (hdb : db.all Char.isDigit = true) :
    rangeSub repl (placeholderChars nm da db ++ suf) = repl ++ rangeSub repl suf := by
  obtain ⟨hlt, hat⟩ := rangeMatchAt_placeholder nm da db suf hnm0 hnm hda0 hda hdb0 hdb
  exact rangeSub_eq_of_matchAt _ _ _ _ _ hat

theorem digitChar_ne_paren (m : Nat) : Nat.digitChar m ≠ '(' := by
  by_cases h : m < 16
  · interval_cases m <;> decide
  · unfold Nat.digitChar
    repeat rw [if_neg (by omega)]
    decide

theorem toDigitsCore_all (p : Char → Bool) (hp : ∀ m, p (Nat.digitChar m) = true)
    (fuel : Nat) : ∀ (n : Nat) (ds : List Char),
    ds.all p = true → (Nat.toDigitsCore 10 fuel n ds).all p = true := by
  induction fuel with
  | zero => intro n ds hds; simpa [Nat.toDigitsCore] using hds
  | succ f ih =>
      intro n ds hds
      unfold Nat.toDigitsCore
      dsimp only
      have hcons : (Nat.digitChar (n % 10) :: ds).all p = true := by
        simp only [List.all_cons, Bool.and_eq_true, hds, and_true]
        exact hp (n % 10)
      by_cases h0 : n / 10 = 0
      · rw [if_pos h0]
        exact hcons
      · rw [if_neg h0]
        exact ih _ _ hcons

theorem natRepr_all (p : Char → Bool) (hp : ∀ m, p (Nat.digitChar m) = true) (n : Nat) :
    (toString n).data.all p = true :=
  toDigitsCore_all p hp (n + 1) n [] rfl

theorem natRepr_no_paren (n : Nat) :
    (toString n).data.all (fun c => c ≠ '(') = true :=
  natRepr_all _ (fun m => by simpa using digitChar_ne_paren m) n


/-- C6: for every topic descriptor whose topic contains a range placeholder
`{nm(a-b)}` with `a <= b`, where the surrounding text contains no `(` (it may
carry arbitrary other `{...}` placeholders, such as `{installation_id}` and
`{device_id}` in the real topics, since those contain no parenthesis),
`expand_topic_list` produces exactly `b - a + 1` concrete descriptors; the
j-th carries `key_values = [(nm, toString (a+j))]` and the placeholder
substituted by `toString (a+j)` in its topic, which retains no range
placeholder; and descriptors whose topic has no range placeholder pass
through unchanged. -/
theorem c6_range_expansion (td : TopicDescriptor) (nm : List Char) (a b : Nat)
    (pre suf da db : List Char)
    (hnm0 : nm ≠ []) (hnm : nm.all isNameChar = true)
    (hda0 : da ≠ []) (hda : da.all Char.isDigit = true)
    (hdb0 : db ≠ []) (hdb : db.all Char.isDigit = true)
    (ha : digitsToNat da = a) (hb : digitsToNat db = b)
    (htopic : td.topic.data = pre ++ placeholderChars nm da db ++ suf)
    (hpre : pre.all (fun c => c ≠ '(') = true)
    (hsuf : suf.all (fun c => c ≠ '(') = true)
    (hab : a ≤ b) :
    (expand_topic_list [td]).length = b - a + 1
    ∧ (∀ j, j < b - a + 1 →
        (expand_topic_list [td])[j]? = some
          { td with
            topic := String.mk (pre ++ ((toString (a + j)).data ++ suf)),
            key_values := [(String.mk nm, toString (a + j))] }
        ∧ rangeMatches (pre ++ ((toString (a + j)).data ++ suf)) = [])
    ∧ (∀ td' : TopicDescriptor, rangeMatches td'.topic.data = [] →
        expand_topic_list [td'] = [td']) := by
  have hhd : (placeholderChars nm da db ++ suf).head? = some '\x7b' := rfl
  have hm : rangeMatches td.topic.data = [(String.mk nm, a, b)] := by
    rw [htopic, List.append_assoc, rangeMatches_append_no_paren _ _ hpre hhd,
      rangeMatches_placeholder nm da db suf hnm0 hnm hda0 hda hdb0 hdb,
      rangeMatches_no_paren suf hsuf, ha, hb]
  have hexp : expand_topic_list [td] =
      (List.range' a (b + 1 - a)).map (fun i =>
        { td with topic := String.mk (rangeSub (toString i).data td.topic.data),
                  key_values := [(String.mk nm, toString i)] }) := by
    simp [expand_topic_list, hm]
  have hsub : ∀ i : Nat, rangeSub (toString i).data td.topic.data =
      pre ++ ((toString i).data ++ suf) := by
    intro i
    rw [htopic, List.append_assoc, rangeSub_append_no_paren _ _ _ hpre hhd,
      rangeSub_placeholder _ nm da db suf hnm0 hnm hda0 hda hdb0 hdb,
      rangeSub_no_paren _ suf hsuf]
  refine ⟨?_, ?_, ?_⟩
  · rw [hexp]
    simp only [List.length_map, List.length_range']
    omega
  · intro j hj
    constructor
    · rw [hexp]
      rw [List.getElem?_map, List.getElem?_range' a 1 (by omega)]
      dsimp only [Option.map]
      rw [Nat.one_mul, hsub (a + j)]
    · apply rangeMatches_no_paren
      simp only [List.all_append, Bool.and_eq_true]
      exact ⟨hpre, natRepr_no_paren (a + j), hsuf⟩
  · intro td2 h2
    simp [expand_topic_list, h2]


theorem c6_range_expansion_witness :
    (c6Descriptor.topic.data =
      "N/\x7binstallation_id\x7d/switch/\x7bdevice_id\x7d/SwitchableOutput/output_".data ++
        placeholderChars "output".data ['1'] ['4'] ++ "/State".data)
    ∧ (expand_topic_list [c6Descriptor]).length = 4 - 1 + 1
    ∧ ((expand_topic_list [c6Descriptor])[1]? = some
        { c6Descriptor with
          topic := String.mk
            ("N/\x7binstallation_id\x7d/switch/\x7bdevice_id\x7d/SwitchableOutput/output_".data ++
              ((toString (1 + 1)).data ++ "/State".data)),
          key_values := [(String.mk "output".data, toString (1 + 1))] }
      ∧ rangeMatches
          ("N/\x7binstallation_id\x7d/switch/\x7bdevice_id\x7d/SwitchableOutput/output_".data ++
            ((toString (1 + 1)).data ++ "/State".data)) = []) := by
  refine ⟨by decide, ?_, ?_⟩
  · exact (c6_range_expansion c6Descriptor "output".data 1 4
      "N/\x7binstallation_id\x7d/switch/\x7bdevice_id\x7d/SwitchableOutput/output_".data
      "/State".data ['1'] ['4']
      (by decide) (by decide) (by decide) (by decide) (by decide) (by decide)
      (by decide) (by decide) (by decide) (by decide) (by decide) (by decide)).1
  · exact (c6_range_expansion c6Descriptor "output".data 1 4
      "N/\x7binstallation_id\x7d/switch/\x7bdevice_id\x7d/SwitchableOutput/output_".data
      "/State".data ['1'] ['4']
      (by decide) (by decide) (by decide) (by decide) (by decide) (by decide)
      (by decide) (by decide) (by decide) (by decide) (by decide) (by decide)).2.1 1
      (by decide)


end VictronMqtt
